import Mathlib

/-!
Verification of the document-tree construction core of the gosub HTML parsing
engine (`src/html5/parser/document.rs`): the `Document` arena tree, its
mutation primitives, the named-id index with id-attribute validation, the
`TreeBuilder` capability implemented immediately by `DocumentHandle` and
deferred by `DocumentTaskQueue`, and the `flush` replay with error collection.

The embedding is shallow: the arena is a list of nodes indexed by position
(the `NodeArena` collaborator lives outside the provided sources; it is
modelled from the spec's collaborator contract: sequential identity
assignment, `register`/`get`/`peek_next_id`/`count`).  Rust panics
(`unwrap`, `expect`, `panic!`, `todo!`) are modelled as `none` / a `fatal`
outcome; Rust `HashMap` insertion is modelled by an association list with
replace-or-append semantics (the guarded call sites never rely on hash
order).  Character classes are modelled faithfully for the whole Unicode
White_Space set and for the ASCII range of Rust's `char::is_alphabetic`.
-/

namespace Gosub

/-- Modelled from the spec: Rust `char::is_whitespace` — the full Unicode
White_Space set (25 code points), written out explicitly. -/
def rustIsWhitespace (c : Char) : Bool :=
  c.toNat == 0x20 || c.toNat == 0x09 || c.toNat == 0x0A || c.toNat == 0x0B ||
  c.toNat == 0x0C || c.toNat == 0x0D || c.toNat == 0x85 || c.toNat == 0xA0 ||
  c.toNat == 0x1680 || (0x2000 ≤ c.toNat && c.toNat ≤ 0x200A) ||
  c.toNat == 0x2028 || c.toNat == 0x2029 || c.toNat == 0x202F ||
  c.toNat == 0x205F || c.toNat == 0x3000

/-- Modelled from the spec: Rust `char::is_alphabetic`, restricted to the
ASCII range (where it coincides with ASCII letters).  Non-ASCII alphabetic
code points are outside the model's character table; no claim depends on
them. -/
def rustIsAlphabetic (c : Char) : Bool :=
  (0x41 ≤ c.toNat && c.toNat ≤ 0x5A) || (0x61 ≤ c.toNat && c.toNat ≤ 0x7A)

/-- Payload of a node (`NodeData` in the source; the node module is outside
the provided sources, its record shape is taken from the spec's data model
and the usages in `document.rs`). -/
inductive NodeData where
  | document : NodeData
  | doctype (name : String) (pub_identifier : String) (sys_identifier : String) : NodeData
  | text (value : String) : NodeData
  | comment (value : String) : NodeData
  | element (name : String) (namespace_ : String)
      (attributes : List (String × String)) (node_id : Nat) : NodeData
deriving DecidableEq

/-- A tree node: identity, position (parent / ordered children), payload,
and the `registered` flag (spec data model; node module outside sources). -/
structure Node where
  id : Nat
  parent : Option Nat
  children : List Nat
  data : NodeData
  is_registered : Bool
deriving DecidableEq

/-- `Node::new_element` — fresh unregistered element node (default id 0). -/
def Node.new_element (name : String) (attributes : List (String × String))
    (namespace_ : String) : Node :=
  { id := 0, parent := none, children := [],
    data := NodeData.element name namespace_ attributes 0, is_registered := false }

/-- `Node::new_text` — fresh unregistered text node. -/
def Node.new_text (content : String) : Node :=
  { id := 0, parent := none, children := [], data := NodeData.text content,
    is_registered := false }

/-- `Node::new_comment` — fresh unregistered comment node. -/
def Node.new_comment (content : String) : Node :=
  { id := 0, parent := none, children := [], data := NodeData.comment content,
    is_registered := false }

/-- `Node::new_document` — fresh unregistered document node. -/
def Node.new_document : Node :=
  { id := 0, parent := none, children := [], data := NodeData.document,
    is_registered := false }

/-- Modelled from the spec: the Node Store collaborator (`NodeArena`,
outside the provided sources).  It owns all nodes of one document and
assigns sequential identities on registration; a node's identity is its
index in the list. -/
structure NodeArena where
  nodes : List Node
deriving DecidableEq

/-- `NodeArena::peek_next_id` — the identity the next registration would
receive, without allocating. -/
def NodeArena.peek_next_id (a : NodeArena) : Nat := a.nodes.length

/-- `NodeArena::get_node` — fetch by identity. -/
def NodeArena.get_node (a : NodeArena) (node_id : Nat) : Option Node :=
  a.nodes[node_id]?

/-- `NodeArena::register_node` — allocate-and-own: assigns the next
sequential identity, writes it into the node, and marks it registered. -/
def NodeArena.register_node (a : NodeArena) (node : Node) : NodeArena × Nat :=
  let node_id := a.nodes.length
  (⟨a.nodes ++ [{ node with id := node_id, is_registered := true }]⟩, node_id)

/-- `NodeArena::count_nodes`. -/
def NodeArena.count_nodes (a : NodeArena) : Nat := a.nodes.length

/-- Functional stand-in for `get_node_mut`: replace the node stored at an
identity (no-op when the identity is unallocated). -/
def NodeArena.set_node (a : NodeArena) (node_id : Nat) (node : Node) : NodeArena :=
  ⟨a.nodes.set node_id node⟩

/-- `DocumentType` (source). -/
inductive DocumentType where
  | HTML : DocumentType
  | IframeSrcDoc : DocumentType
deriving DecidableEq

/-- `QuirksMode` (from the parser's quirks module, outside the provided
sources; consumed here only as an opaque enum value, per the spec). -/
inductive QuirksMode where
  | NoQuirks : QuirksMode
  | Quirks : QuirksMode
  | LimitedQuirks : QuirksMode
deriving DecidableEq

/-- Association-list lookup, modelling `HashMap::get`. -/
def assocGet (m : List (String × String)) (k : String) : Option String :=
  (m.find? (fun p => p.fst == k)).map (fun p => p.snd)

/-- Association-list insert, modelling `HashMap::insert` (replace the
binding when the key is present, append otherwise). -/
def assocInsert (m : List (String × String)) (k v : String) : List (String × String) :=
  match m with
  | [] => [(k, v)]
  | (k0, v0) :: rest =>
    if k0 == k then (k, v) :: rest else (k0, v0) :: assocInsert rest k v

/-- Named-id index lookup, modelling `HashMap::get` on `named_id_elements`. -/
def nidGet (m : List (String × Nat)) (k : String) : Option Nat :=
  (m.find? (fun p => p.fst == k)).map (fun p => p.snd)

/-- Named-id index membership, modelling `HashMap::contains_key`. -/
def nidContains (m : List (String × Nat)) (k : String) : Bool :=
  (m.find? (fun p => p.fst == k)).isSome

/-- `Document` — owns one arena, the named-id index, and the two plain
enum values. -/
structure Document where
  arena : NodeArena
  named_id_elements : List (String × Nat)
  doctype : DocumentType
  quirks_mode : QuirksMode
deriving DecidableEq

/-- `Document::new`. -/
def Document.new : Document :=
  { arena := ⟨[]⟩, named_id_elements := [],
    doctype := DocumentType.HTML, quirks_mode := QuirksMode.NoQuirks }

/-- `Document::get_node_by_id`. -/
def Document.get_node_by_id (d : Document) (node_id : Nat) : Option Node :=
  d.arena.get_node node_id

/-- `Document::get_node_by_named_id`. -/
def Document.get_node_by_named_id (d : Document) (named_id : String) : Option Node :=
  match nidGet d.named_id_elements named_id with
  | none => none
  | some node_id => d.arena.get_node node_id

/-- `Document::validate_id_attribute_value`: reject on any whitespace
character, reject the empty value, then require at least one alphabetic
character anywhere in the value. -/
def Document.validate_id_attribute_value (_d : Document) (value : String) : Bool :=
  if value.data.any rustIsWhitespace then false
  else if value.data.isEmpty then false
  else value.data.any rustIsAlphabetic

/-- `Document::add_new_node`: capture a carried `id` attribute, register the
node when unregistered, echo the final identity into an element payload, and
index the captured id when it validates and is not yet mapped. -/
def Document.add_new_node (d : Document) (node : Node) : Document × Nat :=
  let node_named_id : Option String :=
    match node.data with
    | NodeData.element _ _ attributes _ => assocGet attributes "id"
    | _ => none
  let reg : NodeArena × Nat :=
    if !node.is_registered then d.arena.register_node node else (d.arena, node.id)
  let arena1 := reg.fst
  let node_id := reg.snd
  let arena2 :=
    match arena1.get_node node_id with
    | some n =>
      match n.data with
      | NodeData.element name namespace_ attributes _ =>
        arena1.set_node node_id
          { n with data := NodeData.element name namespace_ attributes node_id }
      | _ => arena1
    | none => arena1
  let named1 :=
    match node_named_id with
    | some nid =>
      if !nidContains d.named_id_elements nid
          && d.validate_id_attribute_value nid then
        d.named_id_elements ++ [(nid, node_id)]
      else d.named_id_elements
    | none => d.named_id_elements
  ({ d with arena := arena2, named_id_elements := named1 }, node_id)

/-- Insert an element at an index of a list (Rust `Vec::insert`; the caller
has already clamped the index to the length). -/
def insertAt (l : List Nat) (i : Nat) (x : Nat) : List Nat :=
  match i, l with
  | 0, l => x :: l
  | _ + 1, [] => [x]
  | i + 1, y :: rest => y :: insertAt rest i x

/-- The body of `has_child` (source): depth-first search of a node's
descendants for `child_id`.  The explicit fuel bounds the recursion depth;
the source recursion is unbounded and the top-level caller passes fuel one
larger than the store size, enough for every simple descendant path. -/
def has_child (arena : NodeArena) : Nat → Option Node → Nat → Bool
  | 0, _, _ => false
  | _ + 1, none, _ => false
  | fuel + 1, some parent_node, child_id =>
    parent_node.children.any (fun id =>
      id == child_id || has_child arena fuel (arena.get_node id) child_id)

/-- `has_child_recursive` (source): true when `child_id` is a strict
descendant of `parent_id` through children lists. -/
def has_child_recursive (arena : NodeArena) (fuel : Nat) (parent_id child_id : Nat) : Bool :=
  match arena.get_node parent_id with
  | none => false
  | some node =>
    node.children.any (fun id =>
      id == child_id || has_child arena fuel (arena.get_node id) child_id)

/-- `Document::has_cyclic_reference`: is `parent_id` reachable by descending
through `node_id`'s subtree. -/
def Document.has_cyclic_reference (d : Document) (node_id parent_id : Nat) : Bool :=
  has_child_recursive d.arena d.arena.nodes.length node_id parent_id

/-- The children-list update of `attach_node_to_parent`: insert at the
position clamped to the current length, or append when no position given
(`Vec::insert` after the `position > len` clamp). -/
def clampInsert (children : List Nat) (position : Option Nat) (node_id : Nat) : List Nat :=
  match position with
  | some p => insertAt children (min p children.length) node_id
  | none => children ++ [node_id]

/-- First half of `attach_node_to_parent`'s mutation: when the parent
resolves, insert the node id into the parent's children (clamped position
or append); when it does not resolve, the children update is skipped. -/
def attachChildren (d : Document) (node_id parent_id : Nat)
    (position : Option Nat) : Document :=
  match d.get_node_by_id parent_id with
  | some parent_node =>
    { d with arena := d.arena.set_node parent_id { parent_node with children := clampInsert parent_node.children position node_id } }
  | none => d

/-- `Document::attach_node_to_parent`: refuse (`false`, no mutation) on
self-parenting or a cycle; otherwise run the children update, then set the
node's parent pointer.  `none` models the `unwrap` panic when the node
itself is unallocated. -/
def Document.attach_node_to_parent (d : Document) (node_id parent_id : Nat)
    (position : Option Nat) : Option (Bool × Document) :=
  if parent_id == node_id || d.has_cyclic_reference node_id parent_id then
    some (false, d)
  else
    let d1 := attachChildren d node_id parent_id position
    match d1.get_node_by_id node_id with
    | some node =>
      some (true, { d1 with arena := d1.arena.set_node node_id { node with parent := some parent_id } })
    | none => none

/-- `Document::add_node`: `add_new_node` followed by
`attach_node_to_parent`. -/
def Document.add_node (d : Document) (node : Node) (parent_id : Nat)
    (position : Option Nat) : Option (Document × Nat) :=
  let r := d.add_new_node node
  match r.fst.attach_node_to_parent r.snd parent_id position with
  | some pr => some (pr.snd, r.snd)
  | none => none

/-- The intermediate document of `detach_node_from_parent`: the node id
removed from the parent's children (`retain`). -/
def detachMid (d : Document) (node_id parent_id : Nat) (parent_node : Node) : Document :=
  { d with arena := d.arena.set_node parent_id { parent_node with children := parent_node.children.filter (fun id => id != node_id) } }

/-- The two-step mutation of `detach_node_from_parent` once the node and
its recorded parent have both been resolved: remove the node id from the
parent's children, then clear the node's parent pointer (re-fetching the
node, with the `expect` panic as `none`). -/
def detachUpdate (d : Document) (node_id parent_id : Nat) (parent_node : Node) :
    Option Document :=
  match (detachMid d node_id parent_id parent_node).get_node_by_id node_id with
  | none => none
  | some n2 =>
    some { detachMid d node_id parent_id parent_node with arena := (detachMid d node_id parent_id parent_node).arena.set_node node_id { n2 with parent := none } }

/-- `Document::detach_node_from_parent`: remove the node from its parent's
children and clear its parent pointer; no-op when it has no parent.  `none`
models the `expect` panics when the node or its recorded parent is
unallocated. -/
def Document.detach_node_from_parent (d : Document) (node_id : Nat) : Option Document :=
  match d.get_node_by_id node_id with
  | none => none
  | some n =>
    match n.parent with
    | none => some d
    | some parent_id =>
      match d.get_node_by_id parent_id with
      | none => none
      | some parent_node => detachUpdate d node_id parent_id parent_node

/-- `Document::relocate`: no-op when the target parent is the current
parent; panic (`none`) on an unregistered or unallocated node; otherwise
detach then attach at the end of the new parent's children. -/
def Document.relocate (d : Document) (node_id parent_id : Nat) : Option Document :=
  match d.get_node_by_id node_id with
  | none => none
  | some node =>
    if !node.is_registered then none
    else if node.parent == some parent_id then some d
    else
      match d.detach_node_from_parent node_id with
      | none => none
      | some d1 =>
        match d1.attach_node_to_parent node_id parent_id none with
        | some pr => some pr.snd
        | none => none

/-- Outcome of the direct-path `insert_attribute`.  `ok` and `taskError`
carry the document as returned; `fatal` models the `todo!()` panic on the
`"class"` key and carries the document state at the panic point (observable
because the attribute map mutation precedes the `match` on the key). -/
inductive AttrResult where
  | ok (d : Document) : AttrResult
  | taskError (msg : String) (d : Document) : AttrResult
  | fatal (d : Document) : AttrResult
deriving DecidableEq

/-- `impl TreeBuilder for DocumentHandle`, `insert_attribute`: validate the
value first (for every key), then resolve the element, store the attribute,
and run the per-key special cases (`"id"`: guarded first-wins index update;
`"class"`: `todo!()`).  The inner message strings are the source's
`format!` strings, with `NodeId`'s display modelled as the decimal of the
identity (as the source's own tests exhibit). -/
def DocumentHandle.insert_attribute (d : Document) (key value : String)
    (element_id : Nat) : AttrResult :=
  if !d.validate_id_attribute_value value then
    AttrResult.taskError
      ("Attribute value \x27" ++ value ++ "\x27 did not pass validation") d
  else
    match d.get_node_by_id element_id with
    | none =>
      AttrResult.taskError ("Node ID " ++ Nat.repr element_id ++ " not found") d
    | some node =>
      match node.data with
      | NodeData.element name namespace_ attributes nid =>
        let attributes1 := assocInsert attributes key value
        let node1 := { node with data := NodeData.element name namespace_ attributes1 nid }
        let d1 := { d with arena := d.arena.set_node element_id node1 }
        if key == "id" then
          if !nidContains d1.named_id_elements value then
            AttrResult.ok
              { d1 with named_id_elements := d1.named_id_elements ++ [(value, element_id)] }
          else AttrResult.ok d1
        else if key == "class" then
          AttrResult.fatal d1
        else AttrResult.ok d1
      | _ =>
        AttrResult.taskError
          ("Node ID " ++ Nat.repr element_id ++ " is not an element") d

/-- `impl TreeBuilder for DocumentHandle`, `create_element`: a fresh empty
element node added under the parent.  Returns the new identity. -/
def Document.create_element (d : Document) (name : String) (parent_id : Nat)
    (position : Option Nat) (namespace_ : String) : Option (Document × Nat) :=
  d.add_node (Node.new_element name [] namespace_) parent_id position

/-- `impl TreeBuilder for DocumentHandle`, `create_text`. -/
def Document.create_text (d : Document) (content : String) (parent_id : Nat) :
    Option Document :=
  (d.add_node (Node.new_text content) parent_id none).map (fun r => r.fst)

/-- `impl TreeBuilder for DocumentHandle`, `create_comment`. -/
def Document.create_comment (d : Document) (content : String) (parent_id : Nat) :
    Option Document :=
  (d.add_node (Node.new_comment content) parent_id none).map (fun r => r.fst)

/-- `DocumentTask` (source): one recorded Tree-Builder instruction.  The
same records double as the call descriptors of a direct Tree-Builder call
sequence (the source type and the method argument tuples are in one-to-one
correspondence). -/
inductive DocumentTask where
  | createElement (name : String) (parent_id : Nat) (position : Option Nat)
      (namespace_ : String) : DocumentTask
  | createText (content : String) (parent_id : Nat) : DocumentTask
  | createComment (content : String) (parent_id : Nat) : DocumentTask
  | insertAttribute (key : String) (value : String) (element_id : Nat) : DocumentTask
deriving DecidableEq

/-- Modelled from the spec: `Error::DocumentTask`'s display (`types` module
outside the provided sources) renders as `"document task error: <message>"`;
the exact text is part of the external contract and is asserted verbatim by
the source's own tests. -/
def errorDisplay (msg : String) : String := "document task error: " ++ msg

/-- Apply one Tree-Builder call directly to a document (the immediate
`DocumentHandle` path).  Recoverable task errors leave the call sequence
running; `none` models a panic (`todo!()` on a `"class"` attribute). -/
def applyCall (d : Document) (t : DocumentTask) : Option Document :=
  match t with
  | DocumentTask.createElement name parent_id position namespace_ =>
    (d.create_element name parent_id position namespace_).map (fun r => r.fst)
  | DocumentTask.createText content parent_id => d.create_text content parent_id
  | DocumentTask.createComment content parent_id => d.create_comment content parent_id
  | DocumentTask.insertAttribute key value element_id =>
    match DocumentHandle.insert_attribute d key value element_id with
    | AttrResult.ok d1 => some d1
    | AttrResult.taskError _ d1 => some d1
    | AttrResult.fatal _ => none

/-- Run a sequence of Tree-Builder calls directly, in order. -/
def runCalls (d : Document) : List DocumentTask → Option Document
  | [] => some d
  | t :: rest =>
    match applyCall d t with
    | some d1 => runCalls d1 rest
    | none => none

/-- `DocumentTaskQueue`: the locally predicted next identity and the FIFO
task list.  (The queue's document handle is modelled by passing the
document explicitly.) -/
structure DocumentTaskQueue where
  next_node_id : Nat
  tasks : List DocumentTask
deriving DecidableEq

/-- `DocumentTaskQueue::new`: the predicted counter starts at the target
store's `peek_next_id`. -/
def DocumentTaskQueue.new (d : Document) : DocumentTaskQueue :=
  { next_node_id := d.arena.peek_next_id, tasks := [] }

/-- `DocumentTaskQueue::is_empty`. -/
def DocumentTaskQueue.is_empty (q : DocumentTaskQueue) : Bool := q.tasks.isEmpty

/-- `impl TreeBuilder for DocumentTaskQueue`, `create_element`: enqueue and
return the predicted identity, advancing the counter by one. -/
def DocumentTaskQueue.create_element (q : DocumentTaskQueue) (name : String)
    (parent_id : Nat) (position : Option Nat) (namespace_ : String) :
    DocumentTaskQueue × Nat :=
  ({ q with
      next_node_id := q.next_node_id + 1,
      tasks := q.tasks ++ [DocumentTask.createElement name parent_id position namespace_] },
    q.next_node_id)

/-- `impl TreeBuilder for DocumentTaskQueue`, `create_text`: enqueue only. -/
def DocumentTaskQueue.create_text (q : DocumentTaskQueue) (content : String)
    (parent_id : Nat) : DocumentTaskQueue :=
  { q with tasks := q.tasks ++ [DocumentTask.createText content parent_id] }

/-- `impl TreeBuilder for DocumentTaskQueue`, `create_comment`: enqueue only. -/
def DocumentTaskQueue.create_comment (q : DocumentTaskQueue) (content : String)
    (parent_id : Nat) : DocumentTaskQueue :=
  { q with tasks := q.tasks ++ [DocumentTask.createComment content parent_id] }

/-- `impl TreeBuilder for DocumentTaskQueue`, `insert_attribute`: enqueue
only; always succeeds before flush. -/
def DocumentTaskQueue.insert_attribute (q : DocumentTaskQueue) (key value : String)
    (element_id : Nat) : DocumentTaskQueue :=
  { q with tasks := q.tasks ++ [DocumentTask.insertAttribute key value element_id] }

/-- The loop body of `DocumentTaskQueue::flush`: replay tasks FIFO against
the live document with the immediate-path primitives, pushing the display
of each recoverable task error and never stopping on one; `none` models a
panic inside a task. -/
def flushLoop (d : Document) : List DocumentTask → List String →
    Option (List String × Document)
  | [], errs => some (errs, d)
  | t :: rest, errs =>
    match t with
    | DocumentTask.insertAttribute key value element_id =>
      match DocumentHandle.insert_attribute d key value element_id with
      | AttrResult.ok d1 => flushLoop d1 rest errs
      | AttrResult.taskError msg d1 => flushLoop d1 rest (errs ++ [errorDisplay msg])
      | AttrResult.fatal _ => none
    | _ =>
      match applyCall d t with
      | some d1 => flushLoop d1 rest errs
      | none => none

/-- `DocumentTaskQueue::flush`: replay everything, clear the queue, return
the collected error messages (plus the resulting document, which the source
reaches through the queue's handle). -/
def DocumentTaskQueue.flush (q : DocumentTaskQueue) (d : Document) :
    Option (List String × DocumentTaskQueue × Document) :=
  match flushLoop d q.tasks [] with
  | some r => some (r.fst, { q with tasks := [] }, r.snd)
  | none => none

/-- `DocumentBuilder::new_document`: a fresh document whose root "document"
node is registered directly with the store. -/
def DocumentBuilder.new_document : Document :=
  let d := Document.new
  let reg := d.arena.register_node Node.new_document
  { d with arena := reg.fst }

/-! ## Observation helpers and shared sample documents -/

/-- Whether a node's payload is an Element. -/
def isElementNode (n : Node) : Bool :=
  match n.data with
  | NodeData.element _ _ _ _ => true
  | _ => false

/-- Read one attribute of the element stored at an identity. -/
def nodeAttr (d : Document) (i : Nat) (k : String) : Option String :=
  match d.get_node_by_id i with
  | some n =>
    match n.data with
    | NodeData.element _ _ attributes _ => assocGet attributes k
    | _ => none
  | none => none

/-- The children list of the node stored at an identity. -/
def childrenAt (d : Document) (i : Nat) : Option (List Nat) :=
  (d.get_node_by_id i).map Node.children

/-- The parent field of the node stored at an identity. -/
def parentAt (d : Document) (i : Nat) : Option (Option Nat) :=
  (d.get_node_by_id i).map Node.parent

/-- A small concrete document: the root document node with two element
children `<a>` (identity 1) and `<b>` (identity 2), built through the
direct Tree-Builder path. -/
def sampleDoc : Document :=
  match runCalls DocumentBuilder.new_document
    [DocumentTask.createElement "a" 0 none "html",
     DocumentTask.createElement "b" 0 none "html"] with
  | some d => d
  | none => Document.new

/-! ## Low-level lemmas about the arena, maps and list operations -/

theorem get_node_set_self (a : NodeArena) (i : Nat) (x : Node)
    (h : i < a.nodes.length) : (a.set_node i x).get_node i = some x :=
  List.getElem?_set_eq_of_lt x h

theorem get_node_set_ne (a : NodeArena) (i j : Nat) (x : Node) (h : i ≠ j) :
    (a.set_node i x).get_node j = a.get_node j :=
  List.getElem?_set_ne h

theorem length_set_node (a : NodeArena) (i : Nat) (x : Node) :
    (a.set_node i x).nodes.length = a.nodes.length := by
  simp [NodeArena.set_node]

theorem lt_of_get_node_eq_some {a : NodeArena} {i : Nat} {n : Node}
    (h : a.get_node i = some n) : i < a.nodes.length := by
  by_contra hlt
  rw [NodeArena.get_node, List.getElem?_eq_none_iff.mpr (Nat.le_of_not_lt hlt)] at h
  exact Option.noConfusion h

theorem get_node_eq_some_of_lt {a : NodeArena} {i : Nat}
    (h : i < a.nodes.length) : ∃ n, a.get_node i = some n := by
  rw [NodeArena.get_node, List.getElem?_eq_getElem h]
  exact ⟨_, rfl⟩

theorem get_node_append_left {a : NodeArena} {i : Nat} (x : Node)
    (h : i < a.nodes.length) :
    (NodeArena.mk (a.nodes ++ [x])).get_node i = a.get_node i :=
  List.getElem?_append_left h

theorem get_node_append_last (a : NodeArena) (x : Node) :
    (NodeArena.mk (a.nodes ++ [x])).get_node a.nodes.length = some x := by
  simp [NodeArena.get_node]

theorem get_node_append_beyond (a : NodeArena) (x : Node) {i : Nat}
    (h : a.nodes.length + 1 ≤ i) :
    (NodeArena.mk (a.nodes ++ [x])).get_node i = none := by
  rw [NodeArena.get_node, List.getElem?_eq_none_iff]
  simpa using h

theorem assocGet_insert_self (m : List (String × String)) (k v : String) :
    assocGet (assocInsert m k v) k = some v := by
  induction m with
  | nil => simp [assocInsert, assocGet]
  | cons p rest ih =>
    obtain ⟨k0, v0⟩ := p
    by_cases h : k0 == k
    · simp [assocInsert, h, assocGet]
    · simp only [assocInsert, h, if_neg]
      simp only [assocGet, List.find?] at ih ⊢
      simp [h, ih]

theorem nidGet_append_of_some {m : List (String × Nat)} {k : String} {n : Nat}
    (l : List (String × Nat)) (h : nidGet m k = some n) :
    nidGet (m ++ l) k = some n := by
  unfold nidGet at h ⊢
  rw [List.find?_append]
  rcases hf : m.find? (fun p => p.fst == k) with _ | p
  · rw [hf] at h; exact Option.noConfusion h
  · rw [hf] at h; rw [hf]; exact h

theorem mem_insertAt (l : List Nat) (i x y : Nat) :
    y ∈ insertAt l i x ↔ y = x ∨ y ∈ l := by
  induction l generalizing i with
  | nil =>
    cases i <;> simp [insertAt]
  | cons z rest ih =>
    cases i with
    | zero => simp [insertAt]
    | succ j =>
      simp only [insertAt, List.mem_cons, ih j]
      tauto

/-! ## C7 — id-attribute validation -/

/-- **C7** `validate_id_attribute_value(v)` accepts exactly the values with
no whitespace character, at least one character, and at least one
alphabetic character anywhere; `""`, `"123"` and `"my id"` are rejected and
`"myid"` is accepted. -/
theorem C7_validate_id_attribute_value :
    (∀ (d : Document) (v : String),
      d.validate_id_attribute_value v = true ↔
        ((∀ c ∈ v.data, ¬ rustIsWhitespace c) ∧ v.data ≠ [] ∧
          ∃ c ∈ v.data, rustIsAlphabetic c))
    ∧ Document.new.validate_id_attribute_value "" = false
    ∧ Document.new.validate_id_attribute_value "123" = false
    ∧ Document.new.validate_id_attribute_value "my id" = false
    ∧ Document.new.validate_id_attribute_value "myid" = true := by
  refine ⟨?_, by decide, by decide, by decide, by decide⟩
  intro d v
  unfold Document.validate_id_attribute_value
  constructor
  · intro h
    split_ifs at h with h1 h2
    rcases List.any_eq_true.mp h with ⟨c, hc, hca⟩
    refine ⟨?_, ?_, ⟨c, hc, hca⟩⟩
    · intro c2 hc2 hw2
      exact h1 (List.any_eq_true.mpr ⟨c2, hc2, hw2⟩)
    · intro hnil
      exact h2 (by simp [hnil])
  · rintro ⟨hall, hne, c, hc, hca⟩
    have h1 : v.data.any rustIsWhitespace = false := by
      rw [List.any_eq_false]
      intro c2 hc2
      simpa using hall c2 hc2
    have h2 : v.data.isEmpty = false := by
      cases hv : v.data with
      | nil => exact absurd hv hne
      | cons a l => simp
    rw [h1, h2]
    simp only [Bool.false_eq_true, if_false]
    exact List.any_eq_true.mpr ⟨c, hc, hca⟩

/-! ## Branch equations for the direct-path `insert_attribute` -/

theorem insert_attribute_invalid (d : Document) (k v : String) (e : Nat)
    (hv : d.validate_id_attribute_value v = false) :
    DocumentHandle.insert_attribute d k v e
      = AttrResult.taskError
          ("Attribute value \x27" ++ v ++ "\x27 did not pass validation") d := by
  unfold DocumentHandle.insert_attribute
  simp [hv]

theorem insert_attribute_not_found (d : Document) (k v : String) (e : Nat)
    (hv : d.validate_id_attribute_value v = true)
    (hg : d.get_node_by_id e = none) :
    DocumentHandle.insert_attribute d k v e
      = AttrResult.taskError ("Node ID " ++ Nat.repr e ++ " not found") d := by
  unfold DocumentHandle.insert_attribute
  simp [hv, hg]

theorem insert_attribute_not_element (d : Document) (k v : String) (e : Nat)
    (n : Node) (hv : d.validate_id_attribute_value v = true)
    (hg : d.get_node_by_id e = some n) (hne : isElementNode n = false) :
    DocumentHandle.insert_attribute d k v e
      = AttrResult.taskError ("Node ID " ++ Nat.repr e ++ " is not an element") d := by
  unfold DocumentHandle.insert_attribute
  cases hd : n.data <;> simp_all [isElementNode, hv, hg, hd]

theorem insert_attribute_element (d : Document) (k v : String) (e : Nat)
    (n : Node) (name namespace_ : String) (attributes : List (String × String))
    (nid : Nat) (hv : d.validate_id_attribute_value v = true)
    (hg : d.get_node_by_id e = some n)
    (hd : n.data = NodeData.element name namespace_ attributes nid) :
    DocumentHandle.insert_attribute d k v e =
      (let node1 := { n with data := NodeData.element name namespace_ (assocInsert attributes k v) nid }
       let d1 := { d with arena := d.arena.set_node e node1 }
       if k == "id" then
         (if !nidContains d1.named_id_elements v then
            AttrResult.ok { d1 with named_id_elements := d1.named_id_elements ++ [(v, e)] }
          else AttrResult.ok d1)
       else if k == "class" then AttrResult.fatal d1
       else AttrResult.ok d1) := by
  unfold DocumentHandle.insert_attribute
  simp [hv, hg, hd]

/-! ## C4 — error conditions of the direct-path `insert_attribute` -/

/-- **C4 (amended)** For every key other than `"class"`, the direct-path
`insert_attribute` returns a task error (leaving the document untouched)
exactly when the value fails id-style validation — the validation applies
to *every* key, not only `"id"` — or the element id does not resolve, or it
resolves to a non-Element node; otherwise it stores the attribute on the
element and returns success. -/
theorem nodeAttr_arena_set {a : NodeArena} (d1 : Document) (e : Nat) (node1 : Node)
    (harena : d1.arena = a.set_node e node1) (hlt : e < a.nodes.length)
    (k : String) :
    nodeAttr d1 e k =
      (match node1.data with
       | NodeData.element _ _ attrs _ => assocGet attrs k
       | _ => none) := by
  unfold nodeAttr Document.get_node_by_id
  rw [harena, get_node_set_self a e node1 hlt]

theorem C4_insert_attribute_errors (d : Document) (key value : String)
    (element_id : Nat) (hk : key ≠ "class") :
    ((∃ msg, DocumentHandle.insert_attribute d key value element_id
        = AttrResult.taskError msg d) ↔
      (d.validate_id_attribute_value value = false
        ∨ d.get_node_by_id element_id = none
        ∨ ∃ n, d.get_node_by_id element_id = some n ∧ isElementNode n = false))
    ∧ ((d.validate_id_attribute_value value = true ∧
        ∃ n, d.get_node_by_id element_id = some n ∧ isElementNode n = true) →
      ∃ d1, DocumentHandle.insert_attribute d key value element_id = AttrResult.ok d1
        ∧ nodeAttr d1 element_id key = some value) := by
  have hkc : (key == "class") = false := beq_eq_false_iff_ne.mpr hk
  cases hv : d.validate_id_attribute_value value with
  | false =>
    rw [insert_attribute_invalid d key value element_id hv]
    refine ⟨⟨fun _ => Or.inl rfl, fun _ => ⟨_, rfl⟩⟩, ?_⟩
    rintro ⟨hv2, -⟩
    exact Bool.noConfusion hv2
  | true =>
    cases hg : d.get_node_by_id element_id with
    | none =>
      rw [insert_attribute_not_found d key value element_id hv hg]
      refine ⟨⟨fun _ => Or.inr (Or.inl rfl), fun _ => ⟨_, rfl⟩⟩, ?_⟩
      rintro ⟨-, n, hn, -⟩
      exact Option.noConfusion hn
    | some n =>
      cases he : isElementNode n with
      | false =>
        rw [insert_attribute_not_element d key value element_id n hv hg he]
        refine ⟨⟨fun _ => Or.inr (Or.inr ⟨n, rfl, he⟩), fun _ => ⟨_, rfl⟩⟩, ?_⟩
        rintro ⟨-, n2, hn2, he2⟩
        cases hn2
        rw [he] at he2
        exact Bool.noConfusion he2
      | true =>
        rcases hd : n.data with _ | ⟨nm, pb, sy⟩ | tv | cv | ⟨name, namespace_, attributes, nid⟩
        · simp [isElementNode, hd] at he
        · simp [isElementNode, hd] at he
        · simp [isElementNode, hd] at he
        · simp [isElementNode, hd] at he
        · rw [insert_attribute_element d key value element_id n name namespace_
            attributes nid hv hg hd]
          have hlt : element_id < d.arena.nodes.length := lt_of_get_node_eq_some hg
          constructor
          · constructor
            · rintro ⟨msg, hmsg⟩
              cases hki : key == "id" <;> simp only [hki, hkc] at hmsg
              · simp only [Bool.false_eq_true, if_false] at hmsg
                exact AttrResult.noConfusion hmsg
              · simp only [if_true] at hmsg
                cases hnc : !nidContains d.named_id_elements value <;>
                  simp only [hnc, Bool.false_eq_true, if_false, if_true] at hmsg <;>
                  exact AttrResult.noConfusion hmsg
            · rintro (hv2 | hg2 | ⟨n2, hn2, he2⟩)
              · exact Bool.noConfusion hv2
              · exact Option.noConfusion hg2
              · cases hn2
                rw [he] at he2
                exact Bool.noConfusion he2
          · intro _
            cases hki : key == "id" <;> simp only [hki, hkc]
            · simp only [Bool.false_eq_true, if_false]
              refine ⟨_, rfl, ?_⟩
              rw [nodeAttr_arena_set _ element_id _ rfl hlt key]
              simp [assocGet_insert_self]
            · simp only [if_true]
              cases hnc : !nidContains d.named_id_elements value <;>
                simp only [hnc, Bool.false_eq_true, if_false, if_true]
              · refine ⟨_, rfl, ?_⟩
                rw [nodeAttr_arena_set _ element_id _ rfl hlt key]
                simp [assocGet_insert_self]
              · refine ⟨_, rfl, ?_⟩
                rw [nodeAttr_arena_set _ element_id _ rfl hlt key]
                simp [assocGet_insert_self]

/-! ## C10 — the `"class"` attribute extension point -/

/-- **C10 (amended)** For a resolvable Element node and a value passing
id-style validation, the direct-path `insert_attribute("class", v, e)` halts
fatally as not-implemented — but only *after* storing the `"class"`
attribute in the element's attribute map; the named-id index, every other
node, and the element's own parent and children are unchanged at the fatal
stop.  (For a value failing validation it returns the recoverable
validation task error instead, with no mutation.) -/
theorem C10_class_attribute_fatal (d : Document) (v : String) (e : Nat) (n : Node)
    (hg : d.get_node_by_id e = some n) (hel : isElementNode n = true)
    (hv : d.validate_id_attribute_value v = true) :
    ∃ d1, DocumentHandle.insert_attribute d "class" v e = AttrResult.fatal d1
      ∧ nodeAttr d1 e "class" = some v
      ∧ d1.named_id_elements = d.named_id_elements
      ∧ (∀ i, i ≠ e → d1.get_node_by_id i = d.get_node_by_id i)
      ∧ childrenAt d1 e = childrenAt d e
      ∧ parentAt d1 e = parentAt d e := by
  rcases hd : n.data with _ | ⟨nm, pb, sy⟩ | tv | cv | ⟨name, namespace_, attributes, nid⟩
  · simp [isElementNode, hd] at hel
  · simp [isElementNode, hd] at hel
  · simp [isElementNode, hd] at hel
  · simp [isElementNode, hd] at hel
  · rw [insert_attribute_element d "class" v e n name namespace_ attributes nid hv hg hd]
    have hlt : e < d.arena.nodes.length := lt_of_get_node_eq_some hg
    have harena : d.get_node_by_id e = d.arena.get_node e := rfl
    refine ⟨{ d with arena := d.arena.set_node e { n with data := NodeData.element name namespace_ (assocInsert attributes "class" v) nid } }, rfl, ?_, rfl, ?_, ?_, ?_⟩
    · rw [nodeAttr_arena_set _ e _ rfl hlt "class"]
      simp [assocGet_insert_self]
    · intro i hi
      show (d.arena.set_node e _).get_node i = d.arena.get_node i
      exact get_node_set_ne d.arena e i _ (fun h => hi h.symm)
    · show ((d.arena.set_node e _).get_node e).map Node.children
        = (d.arena.get_node e).map Node.children
      rw [get_node_set_self d.arena e _ hlt, harena.symm.trans hg]
      rfl
    · show ((d.arena.set_node e _).get_node e).map Node.parent
        = (d.arena.get_node e).map Node.parent
      rw [get_node_set_self d.arena e _ hlt, harena.symm.trans hg]
      rfl

/-- The element node stored at identity 1 of `sampleDoc`. -/
def sampleNode1 : Node :=
  match sampleDoc.get_node_by_id 1 with
  | some n => n
  | none => Node.new_document

/-- **C10 (counterexample)** The claim asserts that at the fatal stop the
`"class"` attribute has *not* been stored.  Concretely, on `sampleDoc` with
the resolvable element 1 and the valid value `"myclass"`, the call halts
fatally with the attribute already present in the element's attribute map. -/
theorem C10_counterexample :
    sampleDoc.validate_id_attribute_value "myclass" = true
    ∧ (∃ n, sampleDoc.get_node_by_id 1 = some n ∧ isElementNode n = true)
    ∧ (match DocumentHandle.insert_attribute sampleDoc "class" "myclass" 1 with
        | AttrResult.fatal d1 => nodeAttr d1 1 "class"
        | _ => none) = some "myclass" :=
  ⟨by decide, ⟨sampleNode1, rfl, by decide⟩, by decide⟩

/-- **C10 (witness)** The amended theorem applied at `sampleDoc`, element 1,
value `"myclass"`. -/
theorem C10_witness :
    sampleDoc.get_node_by_id 1 = some sampleNode1
    ∧ isElementNode sampleNode1 = true
    ∧ sampleDoc.validate_id_attribute_value "myclass" = true
    ∧ ∃ d1, DocumentHandle.insert_attribute sampleDoc "class" "myclass" 1 = AttrResult.fatal d1
        ∧ nodeAttr d1 1 "class" = some "myclass"
        ∧ d1.named_id_elements = sampleDoc.named_id_elements
        ∧ (∀ i, i ≠ 1 → d1.get_node_by_id i = sampleDoc.get_node_by_id i)
        ∧ childrenAt d1 1 = childrenAt sampleDoc 1
        ∧ parentAt d1 1 = parentAt sampleDoc 1 :=
  ⟨rfl, by decide, by decide,
    C10_class_attribute_fatal sampleDoc "myclass" 1 sampleNode1 rfl (by decide) (by decide)⟩

/-- **C4 (counterexample)** The claim exempts keys other than `"id"` from
id-style validation.  Concretely, on `sampleDoc` and the resolvable element
1, `insert_attribute("href", "x y", 1)` — a non-`"id"` key with a value that
fails id-style validation — returns the validation task error instead of
storing the attribute. -/
theorem C4_counterexample :
    (∃ n, sampleDoc.get_node_by_id 1 = some n ∧ isElementNode n = true)
    ∧ ("href" : String) ≠ "id"
    ∧ DocumentHandle.insert_attribute sampleDoc "href" "x y" 1
        = AttrResult.taskError
            ("Attribute value \x27x y\x27 did not pass validation") sampleDoc :=
  ⟨⟨sampleNode1, rfl, by decide⟩, by decide, by decide⟩

/-- **C4 (witness)** The amended theorem applied at `sampleDoc`, key
`"id"`, value `"myid"`, element 1. -/
theorem C4_witness :
    ("id" : String) ≠ "class"
    ∧ ((∃ msg, DocumentHandle.insert_attribute sampleDoc "id" "myid" 1
        = AttrResult.taskError msg sampleDoc) ↔
      (sampleDoc.validate_id_attribute_value "myid" = false
        ∨ sampleDoc.get_node_by_id 1 = none
        ∨ ∃ n, sampleDoc.get_node_by_id 1 = some n ∧ isElementNode n = false)) :=
  ⟨by decide, (C4_insert_attribute_errors sampleDoc "id" "myid" 1 (by decide)).1⟩

/-! ## C5 — cycle rejection on attach -/

/-- Spec-side descendant relation: `descendN a k p c` holds when `c` is
reachable from `p` in exactly `k` steps through children lists. -/
def descendN (a : NodeArena) : Nat → Nat → Nat → Prop
  | 0, p, c => p = c
  | Nat.succ k, p, c => ∃ m nd, a.get_node p = some nd ∧ m ∈ nd.children ∧ descendN a k m c

/-- `c` lies in the subtree of `p` (with a path no longer than the store
size; in a well-formed tree every descendant path is simple, hence bounded
by the number of stored nodes).  `k = 0` is the `c = p` case. -/
def InSubtree (d : Document) (p c : Nat) : Prop :=
  ∃ k, k ≤ d.arena.nodes.length ∧ descendN d.arena k p c

theorem has_child_detect (a : NodeArena) :
    ∀ k fuel p c nd, a.get_node p = some nd → descendN a (k + 1) p c →
      k + 1 ≤ fuel → has_child a fuel (some nd) c = true := by
  intro k
  induction k with
  | zero =>
    intro fuel p c nd hget hdesc hfuel
    rcases hdesc with ⟨m, nd2, hget2, hmem, hme⟩
    rw [hget] at hget2
    cases hget2
    cases fuel with
    | zero => exact absurd hfuel (by omega)
    | succ f =>
      simp only [has_child, List.any_eq_true]
      refine ⟨m, hmem, ?_⟩
      rw [show m = c from hme]
      simp
  | succ j ih =>
    intro fuel p c nd hget hdesc hfuel
    rcases hdesc with ⟨m, nd2, hget2, hmem, hrest⟩
    rw [hget] at hget2
    cases hget2
    cases fuel with
    | zero => exact absurd hfuel (by omega)
    | succ f =>
      simp only [has_child, List.any_eq_true]
      refine ⟨m, hmem, ?_⟩
      rcases hrest with ⟨m2, ndm, hgetm, hmemm, hrest2⟩
      have : has_child a f (some ndm) c = true :=
        ih f m c ndm hgetm ⟨m2, ndm, hgetm, hmemm, hrest2⟩ (by omega)
      rw [hgetm]
      simp [this]

theorem has_child_recursive_detect (a : NodeArena) (fuel k p c : Nat)
    (hdesc : descendN a (k + 1) p c) (hfuel : k + 1 ≤ fuel + 1) :
    has_child_recursive a fuel p c = true := by
  rcases hdesc with ⟨m, nd, hget, hmem, hrest⟩
  unfold has_child_recursive
  rw [hget]
  rw [List.any_eq_true]
  refine ⟨m, hmem, ?_⟩
  cases k with
  | zero =>
    rw [show m = c from hrest]
    simp
  | succ j =>
    rcases hrest with ⟨m2, ndm, hgetm, hmemm, hrest2⟩
    have : has_child a fuel (some ndm) c = true :=
      has_child_detect a j fuel m c ndm hgetm ⟨m2, ndm, hgetm, hmemm, hrest2⟩ (by omega)
    rw [hgetm]
    simp [this]

/-- **C5** For every node N and every D in N's subtree (a strict descendant
or N itself), `attach_node_to_parent(N, D, position)` returns `false` and
returns the document completely unchanged. -/
theorem C5_attach_rejects_descendant (d : Document) (n dd : Nat)
    (position : Option Nat) (h : InSubtree d n dd) :
    d.attach_node_to_parent n dd position = some (false, d) := by
  rcases h with ⟨k, hk, hdesc⟩
  unfold Document.attach_node_to_parent
  cases k with
  | zero =>
    rw [show n = dd from hdesc]
    simp
  | succ j =>
    have hcyc : d.has_cyclic_reference n dd = true := by
      unfold Document.has_cyclic_reference
      exact has_child_recursive_detect d.arena d.arena.nodes.length j n dd hdesc (by omega)
    rw [hcyc]
    simp

/-- **C5 (witness)** In `sampleDoc`, node 1 is a child of the root 0;
attaching the root under node 1 is refused with no mutation. -/
theorem C5_witness :
    InSubtree sampleDoc 0 1
    ∧ sampleDoc.attach_node_to_parent 0 1 none = some (false, sampleDoc) := by
  have hsub : InSubtree sampleDoc 0 1 := ⟨1, by decide, 1, _, rfl, by decide, rfl⟩
  exact ⟨hsub, C5_attach_rejects_descendant sampleDoc 0 1 none hsub⟩

/-! ## C1 — queue-then-flush equals the direct path -/

/-- Record one Tree-Builder call in the queue (dispatch to the queue's four
`TreeBuilder` methods, dropping the returned predicted id). -/
def DocumentTaskQueue.record (q : DocumentTaskQueue) (t : DocumentTask) : DocumentTaskQueue :=
  match t with
  | DocumentTask.createElement name parent_id position namespace_ =>
    (q.create_element name parent_id position namespace_).fst
  | DocumentTask.createText content parent_id => q.create_text content parent_id
  | DocumentTask.createComment content parent_id => q.create_comment content parent_id
  | DocumentTask.insertAttribute key value element_id => q.insert_attribute key value element_id

/-- Record a whole call sequence in the queue, in order. -/
def enqueueAll (q : DocumentTaskQueue) (calls : List DocumentTask) : DocumentTaskQueue :=
  calls.foldl DocumentTaskQueue.record q

theorem record_tasks (q : DocumentTaskQueue) (t : DocumentTask) :
    (q.record t).tasks = q.tasks ++ [t] := by
  cases t <;> rfl

theorem enqueueAll_tasks (calls : List DocumentTask) :
    ∀ q, (enqueueAll q calls).tasks = q.tasks ++ calls := by
  induction calls with
  | nil => intro q; simp [enqueueAll]
  | cons t rest ih =>
    intro q
    show (enqueueAll (q.record t) rest).tasks = _
    rw [ih, record_tasks]
    simp

theorem flushLoop_doc (ts : List DocumentTask) :
    ∀ d errs, (flushLoop d ts errs).map (fun r => r.snd) = runCalls d ts := by
  induction ts with
  | nil => intro d errs; rfl
  | cons t rest ih =>
    intro d errs
    cases t with
    | createElement name parent_id position namespace_ =>
      show (match applyCall d (DocumentTask.createElement name parent_id position namespace_) with
        | some d1 => flushLoop d1 rest errs
        | none => none).map (fun (r : List String × Document) => r.snd) = _
      cases happ : applyCall d (DocumentTask.createElement name parent_id position namespace_) with
      | none => simp [runCalls, happ]
      | some d1 => simp only [runCalls, happ]; exact ih d1 errs
    | createText content parent_id =>
      show (match applyCall d (DocumentTask.createText content parent_id) with
        | some d1 => flushLoop d1 rest errs
        | none => none).map (fun (r : List String × Document) => r.snd) = _
      cases happ : applyCall d (DocumentTask.createText content parent_id) with
      | none => simp [runCalls, happ]
      | some d1 => simp only [runCalls, happ]; exact ih d1 errs
    | createComment content parent_id =>
      show (match applyCall d (DocumentTask.createComment content parent_id) with
        | some d1 => flushLoop d1 rest errs
        | none => none).map (fun (r : List String × Document) => r.snd) = _
      cases happ : applyCall d (DocumentTask.createComment content parent_id) with
      | none => simp [runCalls, happ]
      | some d1 => simp only [runCalls, happ]; exact ih d1 errs
    | insertAttribute key value element_id =>
      show (match DocumentHandle.insert_attribute d key value element_id with
        | AttrResult.ok d1 => flushLoop d1 rest errs
        | AttrResult.taskError msg d1 => flushLoop d1 rest (errs ++ [errorDisplay msg])
        | AttrResult.fatal _ => none).map (fun (r : List String × Document) => r.snd) = _
      cases hres : DocumentHandle.insert_attribute d key value element_id with
      | ok d1 =>
        simp only [runCalls, applyCall, hres]
        exact ih d1 errs
      | taskError msg d1 =>
        simp only [runCalls, applyCall, hres]
        exact ih d1 _
      | fatal d1 =>
        simp [runCalls, applyCall, hres]

theorem flush_doc (q : DocumentTaskQueue) (d : Document) :
    (q.flush d).map (fun r => r.snd.snd) = runCalls d q.tasks := by
  have h := flushLoop_doc q.tasks d []
  unfold DocumentTaskQueue.flush
  cases hf : flushLoop d q.tasks [] with
  | none => rw [hf] at h; simpa using h
  | some r => rw [hf] at h; simpa using h

/-- **C1** Replaying any sequence of Tree-Builder calls through a fresh
`DocumentTaskQueue` followed by `flush()` produces exactly the document the
immediate `DocumentHandle` path produces for the same call sequence — the
same tree shape, payload values, child ordering, and named-id index (and
the same fatal stop, if any). -/
theorem C1_queue_direct_equivalence (d : Document) (calls : List DocumentTask) :
    ((enqueueAll (DocumentTaskQueue.new d) calls).flush d).map (fun r => r.snd.snd)
      = runCalls d calls := by
  rw [flush_doc, enqueueAll_tasks]
  rfl

/-! ## Shape of `add_new_node` on fresh nodes, and store-size lemmas -/

theorem set_append_last (l : List Node) (a x : Node) :
    (l ++ [a]).set l.length x = l ++ [x] := by
  induction l with
  | nil => rfl
  | cons b t ih => simp [List.set, ih]

/-- Registering a fresh (unregistered) node appends exactly one node to the
store — carrying the original parent, children and (up to the identity
echo) payload — returns the old store size as the new identity, and at most
appends one guarded entry to the named-id index. -/
theorem add_new_node_fresh_shape (d : Document) (node : Node)
    (hreg : node.is_registered = false) :
    ∃ nd : Node,
      nd.parent = node.parent ∧ nd.children = node.children ∧
      (d.add_new_node node).fst.arena.nodes = d.arena.nodes ++ [nd] ∧
      (d.add_new_node node).snd = d.arena.nodes.length ∧
      (d.add_new_node node).fst.doctype = d.doctype ∧
      (d.add_new_node node).fst.quirks_mode = d.quirks_mode ∧
      ((d.add_new_node node).fst.named_id_elements = d.named_id_elements ∨
        ∃ snid, (d.add_new_node node).fst.named_id_elements
          = d.named_id_elements ++ [(snid, d.arena.nodes.length)]) := by
  obtain ⟨nid0, par, ch, data, reg⟩ := node
  simp only at hreg
  subst hreg
  unfold Document.add_new_node
  simp only [Bool.not_false, if_true]
  cases data with
  | element name namespace_ attrs enid =>
    simp only [NodeArena.register_node]
    rw [show (NodeArena.mk (d.arena.nodes ++ [{ id := d.arena.nodes.length, parent := par, children := ch, data := NodeData.element name namespace_ attrs enid, is_registered := true }])).get_node d.arena.nodes.length = some { id := d.arena.nodes.length, parent := par, children := ch, data := NodeData.element name namespace_ attrs enid, is_registered := true } from get_node_append_last d.arena _]
    refine ⟨{ id := d.arena.nodes.length, parent := par, children := ch, data := NodeData.element name namespace_ attrs d.arena.nodes.length, is_registered := true }, rfl, rfl, ?_, trivial, trivial, trivial, ?_⟩
    · show ((NodeArena.mk (d.arena.nodes ++ _)).set_node d.arena.nodes.length _).nodes = _
      simp only [NodeArena.set_node]
      exact set_append_last d.arena.nodes _ _
    · cases hn : assocGet attrs "id" with
      | none => exact Or.inl (by trivial)
      | some snid =>
        cases hcb : (!nidContains d.named_id_elements snid
            && d.validate_id_attribute_value snid) with
        | false =>
          simp only [hcb, Bool.false_eq_true, if_false]
          exact Or.inl (by trivial)
        | true =>
          simp only [hcb, if_true]
          exact Or.inr ⟨snid, rfl⟩
  | document =>
    simp only [NodeArena.register_node]
    rw [show (NodeArena.mk (d.arena.nodes ++ [{ id := d.arena.nodes.length, parent := par, children := ch, data := NodeData.document, is_registered := true }])).get_node d.arena.nodes.length = some { id := d.arena.nodes.length, parent := par, children := ch, data := NodeData.document, is_registered := true } from get_node_append_last d.arena _]
    exact ⟨{ id := d.arena.nodes.length, parent := par, children := ch, data := NodeData.document, is_registered := true }, rfl, rfl, rfl, trivial, trivial, trivial, Or.inl trivial⟩
  | doctype nm pb sy =>
    simp only [NodeArena.register_node]
    rw [show (NodeArena.mk (d.arena.nodes ++ [{ id := d.arena.nodes.length, parent := par, children := ch, data := NodeData.doctype nm pb sy, is_registered := true }])).get_node d.arena.nodes.length = some { id := d.arena.nodes.length, parent := par, children := ch, data := NodeData.doctype nm pb sy, is_registered := true } from get_node_append_last d.arena _]
    exact ⟨{ id := d.arena.nodes.length, parent := par, children := ch, data := NodeData.doctype nm pb sy, is_registered := true }, rfl, rfl, rfl, trivial, trivial, trivial, Or.inl trivial⟩
  | text tv =>
    simp only [NodeArena.register_node]
    rw [show (NodeArena.mk (d.arena.nodes ++ [{ id := d.arena.nodes.length, parent := par, children := ch, data := NodeData.text tv, is_registered := true }])).get_node d.arena.nodes.length = some { id := d.arena.nodes.length, parent := par, children := ch, data := NodeData.text tv, is_registered := true } from get_node_append_last d.arena _]
    exact ⟨{ id := d.arena.nodes.length, parent := par, children := ch, data := NodeData.text tv, is_registered := true }, rfl, rfl, rfl, trivial, trivial, trivial, Or.inl trivial⟩
  | comment cv =>
    simp only [NodeArena.register_node]
    rw [show (NodeArena.mk (d.arena.nodes ++ [{ id := d.arena.nodes.length, parent := par, children := ch, data := NodeData.comment cv, is_registered := true }])).get_node d.arena.nodes.length = some { id := d.arena.nodes.length, parent := par, children := ch, data := NodeData.comment cv, is_registered := true } from get_node_append_last d.arena _]
    exact ⟨{ id := d.arena.nodes.length, parent := par, children := ch, data := NodeData.comment cv, is_registered := true }, rfl, rfl, rfl, trivial, trivial, trivial, Or.inl trivial⟩

/-! ## Totality and size of attach / add_node on stored nodes -/

theorem attachChildren_length (d : Document) (n p : Nat) (pos : Option Nat) :
    (attachChildren d n p pos).arena.nodes.length = d.arena.nodes.length := by
  unfold attachChildren
  cases hg : d.get_node_by_id p
  · rfl
  · exact length_set_node _ _ _

theorem attachChildren_other (d : Document) (n p : Nat) (pos : Option Nat) :
    (attachChildren d n p pos).named_id_elements = d.named_id_elements
    ∧ (attachChildren d n p pos).doctype = d.doctype
    ∧ (attachChildren d n p pos).quirks_mode = d.quirks_mode := by
  unfold attachChildren
  cases hg : d.get_node_by_id p
  · exact ⟨rfl, rfl, rfl⟩
  · exact ⟨rfl, rfl, rfl⟩

theorem attachChildren_get_ne (d : Document) (n p : Nat) (pos : Option Nat)
    (i : Nat) (hi : i ≠ p) :
    (attachChildren d n p pos).get_node_by_id i = d.get_node_by_id i := by
  unfold attachChildren
  cases hg : d.get_node_by_id p
  · rfl
  · exact get_node_set_ne d.arena p i _ (fun hq => hi hq.symm)

theorem attachChildren_get_parent (d : Document) (n p : Nat) (pos : Option Nat)
    (pn : Node) (hg : d.get_node_by_id p = some pn) :
    (attachChildren d n p pos).get_node_by_id p
      = some { pn with children := clampInsert pn.children pos n } := by
  unfold attachChildren
  rw [hg]
  exact get_node_set_self d.arena p _ (lt_of_get_node_eq_some hg)

theorem attach_cases (d : Document) (n p : Nat) (pos : Option Nat) :
    ((p == n || d.has_cyclic_reference n p) = true
        ∧ d.attach_node_to_parent n p pos = some (false, d))
    ∨ ((p == n || d.has_cyclic_reference n p) = false
        ∧ ∃ node, (attachChildren d n p pos).get_node_by_id n = some node
          ∧ d.attach_node_to_parent n p pos = some (true, { attachChildren d n p pos with arena := (attachChildren d n p pos).arena.set_node n { node with parent := some p } }))
    ∨ ((p == n || d.has_cyclic_reference n p) = false
        ∧ (attachChildren d n p pos).get_node_by_id n = none
        ∧ d.attach_node_to_parent n p pos = none) := by
  cases hc : (p == n || d.has_cyclic_reference n p) with
  | true =>
    left
    refine ⟨rfl, ?_⟩
    unfold Document.attach_node_to_parent
    rw [hc]
    rfl
  | false =>
    right
    unfold Document.attach_node_to_parent
    rw [hc]
    simp only [Bool.false_eq_true, if_false]
    cases hgn : (attachChildren d n p pos).get_node_by_id n with
    | some node => exact Or.inl ⟨by trivial, node, rfl, rfl⟩
    | none => exact Or.inr ⟨by trivial, rfl, rfl⟩

theorem attach_total_of_node_stored (d : Document) (n p : Nat) (pos : Option Nat)
    (hn : (d.arena.get_node n).isSome) :
    ∃ b d2, d.attach_node_to_parent n p pos = some (b, d2) := by
  rcases attach_cases d n p pos with ⟨-, heq⟩ | ⟨-, node, -, heq⟩ | ⟨hc, hgn, -⟩
  · exact ⟨_, _, heq⟩
  · exact ⟨_, _, heq⟩
  · have hpn : p ≠ n := by
      intro hq
      rw [hq] at hc
      simp at hc
    rw [attachChildren_get_ne d n p pos n (fun hq => hpn hq.symm)] at hgn
    unfold Document.get_node_by_id at hgn
    rw [hgn] at hn
    exact Bool.noConfusion hn

theorem attach_shape (d : Document) (n p : Nat) (pos : Option Nat) (b : Bool)
    (d2 : Document) (h : d.attach_node_to_parent n p pos = some (b, d2)) :
    d2.arena.nodes.length = d.arena.nodes.length
    ∧ d2.named_id_elements = d.named_id_elements
    ∧ d2.doctype = d.doctype ∧ d2.quirks_mode = d.quirks_mode := by
  rcases attach_cases d n p pos with ⟨-, heq⟩ | ⟨-, node, hget, heq⟩ | ⟨-, -, heq⟩
  · rw [heq] at h
    cases h
    exact ⟨rfl, rfl, rfl, rfl⟩
  · rw [heq] at h
    cases h
    refine ⟨?_, ?_, ?_, ?_⟩
    · show ((attachChildren d n p pos).arena.set_node n _).nodes.length = _
      rw [length_set_node, attachChildren_length]
    · exact (attachChildren_other d n p pos).1
    · exact (attachChildren_other d n p pos).2.1
    · exact (attachChildren_other d n p pos).2.2
  · rw [heq] at h
    exact Option.noConfusion h

theorem add_node_fresh (d : Document) (node : Node) (pid : Nat) (pos : Option Nat)
    (hreg : node.is_registered = false) :
    ∃ d1, d.add_node node pid pos = some (d1, d.arena.nodes.length)
      ∧ d1.arena.nodes.length = d.arena.nodes.length + 1 := by
  rcases add_new_node_fresh_shape d node hreg with
    ⟨nd, hpar, hch, hnodes, hsnd, hdt, hqm, hnamed⟩
  have hstored : ((d.add_new_node node).fst.arena.get_node (d.add_new_node node).snd).isSome := by
    rw [hsnd, NodeArena.get_node, hnodes]
    simp
  rcases attach_total_of_node_stored (d.add_new_node node).fst (d.add_new_node node).snd
      pid pos hstored with ⟨b, d2, hatt⟩
  rcases attach_shape _ _ _ _ _ _ hatt with ⟨hlen2, -, -, -⟩
  have hrun : d.add_node node pid pos = some (d2, (d.add_new_node node).snd) := by
    unfold Document.add_node
    show (match (d.add_new_node node).fst.attach_node_to_parent (d.add_new_node node).snd pid pos with
      | some pr => some (pr.snd, (d.add_new_node node).snd)
      | none => none) = _
    rw [hatt]
  rw [hsnd] at hrun
  refine ⟨d2, hrun, ?_⟩
  rw [hlen2, hnodes]
  simp

theorem create_element_id (d : Document) (name : String) (pid : Nat)
    (pos : Option Nat) (namespace_ : String) :
    ∃ d1, d.create_element name pid pos namespace_ = some (d1, d.arena.nodes.length)
      ∧ d1.arena.nodes.length = d.arena.nodes.length + 1 :=
  add_node_fresh d (Node.new_element name [] namespace_) pid pos rfl

theorem create_text_length (d : Document) (content : String) (pid : Nat) :
    ∃ d1, d.create_text content pid = some d1
      ∧ d1.arena.nodes.length = d.arena.nodes.length + 1 := by
  rcases add_node_fresh d (Node.new_text content) pid none rfl with ⟨d1, hadd, hlen⟩
  exact ⟨d1, by unfold Document.create_text; rw [hadd]; rfl, hlen⟩

theorem create_comment_length (d : Document) (content : String) (pid : Nat) :
    ∃ d1, d.create_comment content pid = some d1
      ∧ d1.arena.nodes.length = d.arena.nodes.length + 1 := by
  rcases add_node_fresh d (Node.new_comment content) pid none rfl with ⟨d1, hadd, hlen⟩
  exact ⟨d1, by unfold Document.create_comment; rw [hadd]; rfl, hlen⟩

/-! ## Shape of the direct-path `insert_attribute` -/

theorem insert_attribute_shape (d : Document) (k v : String) (e : Nat) :
    (∃ m, DocumentHandle.insert_attribute d k v e = AttrResult.taskError m d)
    ∨ (∃ d1, (DocumentHandle.insert_attribute d k v e = AttrResult.ok d1
          ∨ DocumentHandle.insert_attribute d k v e = AttrResult.fatal d1)
        ∧ d1.arena.nodes.length = d.arena.nodes.length
        ∧ (∀ i, parentAt d1 i = parentAt d i)
        ∧ (∀ i, childrenAt d1 i = childrenAt d i)
        ∧ (d1.named_id_elements = d.named_id_elements
            ∨ d1.named_id_elements = d.named_id_elements ++ [(v, e)])
        ∧ d1.doctype = d.doctype ∧ d1.quirks_mode = d.quirks_mode) := by
  cases hv : d.validate_id_attribute_value v with
  | false => exact Or.inl ⟨_, insert_attribute_invalid d k v e hv⟩
  | true =>
    cases hg : d.get_node_by_id e with
    | none => exact Or.inl ⟨_, insert_attribute_not_found d k v e hv hg⟩
    | some n =>
      cases he : isElementNode n with
      | false => exact Or.inl ⟨_, insert_attribute_not_element d k v e n hv hg he⟩
      | true =>
        rcases hd : n.data with _ | ⟨nm, pb, sy⟩ | tv | cv | ⟨name, namespace_, attrs, nid⟩
        · simp [isElementNode, hd] at he
        · simp [isElementNode, hd] at he
        · simp [isElementNode, hd] at he
        · simp [isElementNode, hd] at he
        · rw [insert_attribute_element d k v e n name namespace_ attrs nid hv hg hd]
          have hlt : e < d.arena.nodes.length := lt_of_get_node_eq_some hg
          have hpar : ∀ i, parentAt { d with arena := d.arena.set_node e { n with data := NodeData.element name namespace_ (assocInsert attrs k v) nid } } i = parentAt d i := by
            intro i
            by_cases hie : i = e
            · subst hie
              unfold parentAt Document.get_node_by_id
              rw [get_node_set_self d.arena i _ hlt]
              rw [show d.arena.get_node i = some n from hg]
              rfl
            · unfold parentAt Document.get_node_by_id
              rw [get_node_set_ne d.arena e i _ (fun hq => hie hq.symm)]
          have hch : ∀ i, childrenAt { d with arena := d.arena.set_node e { n with data := NodeData.element name namespace_ (assocInsert attrs k v) nid } } i = childrenAt d i := by
            intro i
            by_cases hie : i = e
            · subst hie
              unfold childrenAt Document.get_node_by_id
              rw [get_node_set_self d.arena i _ hlt]
              rw [show d.arena.get_node i = some n from hg]
              rfl
            · unfold childrenAt Document.get_node_by_id
              rw [get_node_set_ne d.arena e i _ (fun hq => hie hq.symm)]
          cases hki : k == "id" with
          | true =>
            simp only [hki, if_true]
            cases hnc : !nidContains d.named_id_elements v with
            | true =>
              simp only [hnc, if_true]
              refine Or.inr ⟨_, Or.inl rfl, length_set_node _ _ _, hpar, hch, Or.inr rfl, rfl, rfl⟩
            | false =>
              simp only [hnc, Bool.false_eq_true, if_false]
              exact Or.inr ⟨_, Or.inl rfl, length_set_node _ _ _, hpar, hch, Or.inl rfl, rfl, rfl⟩
          | false =>
            simp only [hki, Bool.false_eq_true, if_false]
            cases hkc : k == "class" with
            | true =>
              simp only [hkc, if_true]
              exact Or.inr ⟨_, Or.inr rfl, length_set_node _ _ _, hpar, hch, Or.inl rfl, rfl, rfl⟩
            | false =>
              simp only [hkc, Bool.false_eq_true, if_false]
              exact Or.inr ⟨_, Or.inl rfl, length_set_node _ _ _, hpar, hch, Or.inl rfl, rfl, rfl⟩

/-! ## Task counting and store growth across a call sequence -/

/-- Whether a task registers a node on replay (all but attribute tasks). -/
def isCreator : DocumentTask → Bool
  | DocumentTask.insertAttribute _ _ _ => false
  | _ => true

/-- Whether a task is an element-creation task. -/
def isElementTask : DocumentTask → Bool
  | DocumentTask.createElement _ _ _ _ => true
  | _ => false

/-- Number of node-registering tasks. -/
def countCreators (ts : List DocumentTask) : Nat := (ts.filter isCreator).length

/-- Number of element-creation tasks. -/
def countElements (ts : List DocumentTask) : Nat := (ts.filter isElementTask).length

/-- No text- or comment-creation task occurs in the list. -/
def noTextComment : List DocumentTask → Bool
  | [] => true
  | DocumentTask.createText _ _ :: _ => false
  | DocumentTask.createComment _ _ :: _ => false
  | _ :: rest => noTextComment rest

theorem countCreators_cons (t : DocumentTask) (ts : List DocumentTask) :
    countCreators (t :: ts) = (if isCreator t then 1 else 0) + countCreators ts := by
  unfold countCreators
  cases h : isCreator t <;> simp [List.filter_cons, h, Nat.add_comm]

theorem countElements_cons (t : DocumentTask) (ts : List DocumentTask) :
    countElements (t :: ts) = (if isElementTask t then 1 else 0) + countElements ts := by
  unfold countElements
  cases h : isElementTask t <;> simp [List.filter_cons, h, Nat.add_comm]

theorem countElements_eq_countCreators (ts : List DocumentTask)
    (h : noTextComment ts = true) : countElements ts = countCreators ts := by
  induction ts with
  | nil => rfl
  | cons t rest ih =>
    cases t with
    | createElement name pid pos ns =>
      rw [countElements_cons, countCreators_cons]
      rw [ih (by exact h)]
      rfl
    | createText c pid => exact Bool.noConfusion h
    | createComment c pid => exact Bool.noConfusion h
    | insertAttribute k v e =>
      rw [countElements_cons, countCreators_cons]
      rw [ih (by exact h)]
      rfl

theorem applyCall_length (d : Document) (t : DocumentTask) (d1 : Document)
    (h : applyCall d t = some d1) :
    d1.arena.nodes.length = d.arena.nodes.length + (if isCreator t then 1 else 0) := by
  cases t with
  | createElement name pid pos ns =>
    rcases create_element_id d name pid pos ns with ⟨d2, heq, hlen⟩
    simp only [applyCall, heq, Option.map_some] at h
    cases h
    simpa [isCreator] using hlen
  | createText c pid =>
    rcases create_text_length d c pid with ⟨d2, heq, hlen⟩
    simp only [applyCall, heq] at h
    cases h
    simpa [isCreator] using hlen
  | createComment c pid =>
    rcases create_comment_length d c pid with ⟨d2, heq, hlen⟩
    simp only [applyCall, heq] at h
    cases h
    simpa [isCreator] using hlen
  | insertAttribute k v e =>
    rcases insert_attribute_shape d k v e with ⟨m, heq⟩ | ⟨d2, hres, hlen, -⟩
    · simp only [applyCall, heq] at h
      cases h
      simp [isCreator]
    · rcases hres with heq | heq <;> simp only [applyCall, heq] at h
      · cases h
        simpa [isCreator] using hlen
      · exact Option.noConfusion h

theorem runCalls_length (ts : List DocumentTask) :
    ∀ d d1, runCalls d ts = some d1 →
      d1.arena.nodes.length = d.arena.nodes.length + countCreators ts := by
  induction ts with
  | nil =>
    intro d d1 h
    cases h
    rfl
  | cons t rest ih =>
    intro d d1 h
    unfold runCalls at h
    cases happ : applyCall d t <;> rw [happ] at h
    · exact Option.noConfusion h
    · rw [countCreators_cons]
      have h1 := applyCall_length d t _ happ
      have h2 := ih _ d1 h
      omega

theorem record_next (q : DocumentTaskQueue) (t : DocumentTask) :
    (q.record t).next_node_id = q.next_node_id + (if isElementTask t then 1 else 0) := by
  cases t <;> rfl

theorem enqueueAll_next (ts : List DocumentTask) :
    ∀ q, (enqueueAll q ts).next_node_id = q.next_node_id + countElements ts := by
  induction ts with
  | nil => intro q; rfl
  | cons t rest ih =>
    intro q
    show (enqueueAll (q.record t) rest).next_node_id = _
    rw [ih, record_next, countElements_cons]
    omega

/-! ## C3 — predicted element identities -/

/-- **C3 (amended)** The queue's predicted id for an element is correct
provided additionally that no text- or comment-creation task precedes that
element's task in the queue: after replaying the preceding tasks, the
element task registers its node exactly at the predicted identity (the
store's `peek_next_id` at that point).  Without that extra proviso the
claim fails, because `create_text`/`create_comment` also register nodes at
flush but do not advance the queue's predicted counter. -/
theorem C3_predicted_element_id (d : Document) (pre : List DocumentTask)
    (name : String) (pid : Nat) (pos : Option Nat) (namespace_ : String)
    (di : Document) (hnc : noTextComment pre = true)
    (hrun : runCalls d pre = some di) :
    ((enqueueAll (DocumentTaskQueue.new d) pre).create_element name pid pos namespace_).snd
      = di.arena.peek_next_id
    ∧ (di.create_element name pid pos namespace_).map (fun r => r.snd)
      = some di.arena.peek_next_id := by
  constructor
  · show (enqueueAll (DocumentTaskQueue.new d) pre).next_node_id = _
    rw [enqueueAll_next]
    show d.arena.nodes.length + countElements pre = di.arena.nodes.length
    rw [countElements_eq_countCreators pre hnc]
    rw [runCalls_length pre d di hrun]
  · rcases create_element_id di name pid pos namespace_ with ⟨d2, heq, -⟩
    rw [heq]
    rfl

/-- **C3 (witness)** With one preceding element task on a fresh document,
the predicted id (1) matches the id the element receives on replay. -/
theorem C3_witness :
    noTextComment [DocumentTask.createElement "div" 0 none "html"] = true
    ∧ runCalls DocumentBuilder.new_document [DocumentTask.createElement "div" 0 none "html"]
        = some (match runCalls DocumentBuilder.new_document [DocumentTask.createElement "div" 0 none "html"] with | some di => di | none => Document.new)
    ∧ (((enqueueAll (DocumentTaskQueue.new DocumentBuilder.new_document)
          [DocumentTask.createElement "div" 0 none "html"]).create_element "p" 1 none "html").snd
        = (match runCalls DocumentBuilder.new_document [DocumentTask.createElement "div" 0 none "html"] with | some di => di | none => Document.new).arena.peek_next_id
      ∧ ((match runCalls DocumentBuilder.new_document [DocumentTask.createElement "div" 0 none "html"] with | some di => di | none => Document.new).create_element "p" 1 none "html").map (fun (r : Document × Nat) => r.snd)
        = some (match runCalls DocumentBuilder.new_document [DocumentTask.createElement "div" 0 none "html"] with | some di => di | none => Document.new).arena.peek_next_id) :=
  ⟨rfl, rfl,
    C3_predicted_element_id DocumentBuilder.new_document
      [DocumentTask.createElement "div" 0 none "html"] "p" 1 none "html" _ rfl rfl⟩

/-- **C3 (counterexample)** The claim allows the queued tasks to come "in
any order".  With a text task queued before the element task on a fresh
document (and nothing else registering nodes between queue construction and
flush), the queue predicts id 1 for the element, but on replay the text
node receives id 1 and the element receives id 2. -/
theorem C3_counterexample :
    ((enqueueAll (DocumentTaskQueue.new DocumentBuilder.new_document)
        [DocumentTask.createText "a" 0]).create_element "div" 0 none "html").snd = 1
    ∧ (match runCalls DocumentBuilder.new_document [DocumentTask.createText "a" 0] with
        | some di => (di.create_element "div" 0 none "html").map (fun r => r.snd)
        | none => none) = some 2
    ∧ (1 : Nat) ≠ 2 :=
  ⟨rfl, rfl, by decide⟩

/-! ## C6 — flush error collection -/

/-- The error message the `i`-th task produces, evaluated on the document
state reached by replaying the tasks before it (independent spec-side
characterization: one optional message per task position). -/
def errAt (d : Document) (ts : List DocumentTask) (i : Nat) : Option String :=
  match ts.get? i with
  | some (DocumentTask.insertAttribute k v e) =>
    (match runCalls d (ts.take i) with
     | some di =>
       (match DocumentHandle.insert_attribute di k v e with
        | AttrResult.taskError m _ => some (errorDisplay m)
        | _ => none)
     | none => none)
  | _ => none

/-- The error messages of the failing tasks, in task order. -/
def taskErrorMessages (d : Document) (ts : List DocumentTask) : List String :=
  (List.range ts.length).filterMap (errAt d ts)

/-- A rendered task-error message has one of the three exact contract
shapes. -/
def errShape (e : String) : Prop :=
  (∃ n : Nat, e = "document task error: " ++ ("Node ID " ++ Nat.repr n ++ " is not an element"))
  ∨ (∃ n : Nat, e = "document task error: " ++ ("Node ID " ++ Nat.repr n ++ " not found"))
  ∨ (∃ v : String, e = "document task error: "
      ++ ("Attribute value \x27" ++ v ++ "\x27 did not pass validation"))

theorem insert_attribute_error_shape (d : Document) (k v : String) (e : Nat)
    (m : String) (d0 : Document)
    (h : DocumentHandle.insert_attribute d k v e = AttrResult.taskError m d0) :
    errShape (errorDisplay m) := by
  cases hv : d.validate_id_attribute_value v with
  | false =>
    rw [insert_attribute_invalid d k v e hv] at h
    cases h
    exact Or.inr (Or.inr ⟨v, rfl⟩)
  | true =>
    cases hg : d.get_node_by_id e with
    | none =>
      rw [insert_attribute_not_found d k v e hv hg] at h
      cases h
      exact Or.inr (Or.inl ⟨e, rfl⟩)
    | some n =>
      cases he : isElementNode n with
      | false =>
        rw [insert_attribute_not_element d k v e n hv hg he] at h
        cases h
        exact Or.inl ⟨e, rfl⟩
      | true =>
        rcases hd : n.data with _ | ⟨nm, pb, sy⟩ | tv | cv | ⟨name, namespace_, attrs, nid⟩
        · simp [isElementNode, hd] at he
        · simp [isElementNode, hd] at he
        · simp [isElementNode, hd] at he
        · simp [isElementNode, hd] at he
        · rw [insert_attribute_element d k v e n name namespace_ attrs nid hv hg hd] at h
          cases hki : k == "id" <;> simp only [hki, Bool.false_eq_true, if_false, if_true] at h
          · cases hkc : k == "class" <;>
              simp only [hkc, Bool.false_eq_true, if_false, if_true] at h <;>
              exact AttrResult.noConfusion h
          · cases hnc : !nidContains d.named_id_elements v <;>
              simp only [hnc, Bool.false_eq_true, if_false, if_true] at h <;>
              exact AttrResult.noConfusion h

theorem errAt_cons_succ (d : Document) (t : DocumentTask) (rest : List DocumentTask)
    (i : Nat) :
    errAt d (t :: rest) (i + 1)
      = (match applyCall d t with
         | some d2 => errAt d2 rest i
         | none => none) := by
  unfold errAt
  rw [List.get?_cons_succ, List.take_succ_cons]
  cases happ : applyCall d t with
  | some d2 =>
    cases hgi : rest.get? i with
    | none => rfl
    | some task =>
      cases task with
      | insertAttribute k v e =>
        rw [show runCalls d (t :: rest.take i)
          = (match applyCall d t with
             | some dx => runCalls dx (rest.take i)
             | none => none) from rfl, happ]
      | createElement name pid pos ns => rfl
      | createText c pid => rfl
      | createComment c pid => rfl
  | none =>
    cases hgi : rest.get? i with
    | none => rfl
    | some task =>
      cases task with
      | insertAttribute k v e =>
        rw [show runCalls d (t :: rest.take i)
          = (match applyCall d t with
             | some dx => runCalls dx (rest.take i)
             | none => none) from rfl, happ]
      | createElement name pid pos ns => rfl
      | createText c pid => rfl
      | createComment c pid => rfl

theorem taskErrorMessages_cons (d : Document) (t : DocumentTask)
    (rest : List DocumentTask) :
    taskErrorMessages d (t :: rest)
      = (match t with
         | DocumentTask.insertAttribute k v e =>
           (match DocumentHandle.insert_attribute d k v e with
            | AttrResult.taskError m _ => [errorDisplay m]
            | _ => [])
         | _ => []) ++
        (match applyCall d t with
         | some d2 => taskErrorMessages d2 rest
         | none => []) := by
  unfold taskErrorMessages
  show (List.range (rest.length + 1)).filterMap (errAt d (t :: rest)) = _
  rw [List.range_succ_eq_map]
  rw [List.filterMap_cons]
  rw [List.filterMap_map]
  have hzero : errAt d (t :: rest) 0
      = (match t with
         | DocumentTask.insertAttribute k v e =>
           (match DocumentHandle.insert_attribute d k v e with
            | AttrResult.taskError m _ => some (errorDisplay m)
            | _ => none)
         | _ => none) := by
    cases t with
    | insertAttribute k v e =>
      show (match runCalls d [] with
        | some di =>
          (match DocumentHandle.insert_attribute di k v e with
           | AttrResult.taskError m _ => some (errorDisplay m)
           | _ => none)
        | none => none) = _
      rfl
    | createElement name pid pos ns => rfl
    | createText c pid => rfl
    | createComment c pid => rfl
  have hsucc : (List.range rest.length).filterMap (errAt d (t :: rest) ∘ Nat.succ)
      = (match applyCall d t with
         | some d2 => taskErrorMessages d2 rest
         | none => []) := by
    have hcong : ∀ i ∈ List.range rest.length,
        (errAt d (t :: rest) ∘ Nat.succ) i
          = (fun i => match applyCall d t with
              | some d2 => errAt d2 rest i
              | none => none) i := by
      intro i hi
      exact errAt_cons_succ d t rest i
    rw [List.filterMap_congr hcong]
    cases happ : applyCall d t with
    | some d2 => simp only [happ]; rfl
    | none => simp only [happ]; simp
  rw [hzero, hsucc]
  cases t with
  | insertAttribute k v e =>
    cases hres : DocumentHandle.insert_attribute d k v e with
    | ok d2 => simp only [hres]; rfl
    | taskError m d2 => simp only [hres]; rfl
    | fatal d2 => simp only [hres]; rfl
  | createElement name pid pos ns => rfl
  | createText c pid => rfl
  | createComment c pid => rfl

theorem flushLoop_spec (ts : List DocumentTask) :
    ∀ d errs0 errs d1, flushLoop d ts errs0 = some (errs, d1) →
      runCalls d ts = some d1 ∧ errs = errs0 ++ taskErrorMessages d ts := by
  induction ts with
  | nil =>
    intro d errs0 errs d1 h
    cases h
    exact ⟨rfl, by simp [taskErrorMessages]⟩
  | cons t rest ih =>
    intro d errs0 errs d1 h
    rw [taskErrorMessages_cons]
    cases t with
    | insertAttribute k v e =>
      cases hres : DocumentHandle.insert_attribute d k v e with
      | ok d2 =>
        rw [show flushLoop d (DocumentTask.insertAttribute k v e :: rest) errs0
          = (match DocumentHandle.insert_attribute d k v e with
             | AttrResult.ok dx => flushLoop dx rest errs0
             | AttrResult.taskError msg dx => flushLoop dx rest (errs0 ++ [errorDisplay msg])
             | AttrResult.fatal _ => none) from rfl, hres] at h
        rcases ih d2 errs0 errs d1 h with ⟨hrun, herrs⟩
        refine ⟨?_, ?_⟩
        · show (match applyCall d (DocumentTask.insertAttribute k v e) with
            | some dx => runCalls dx rest
            | none => none) = some d1
          simp only [applyCall, hres]
          exact hrun
        · rw [herrs]
          simp only [applyCall, hres]
          rfl
      | taskError m d2 =>
        rw [show flushLoop d (DocumentTask.insertAttribute k v e :: rest) errs0
          = (match DocumentHandle.insert_attribute d k v e with
             | AttrResult.ok dx => flushLoop dx rest errs0
             | AttrResult.taskError msg dx => flushLoop dx rest (errs0 ++ [errorDisplay msg])
             | AttrResult.fatal _ => none) from rfl, hres] at h
        rcases ih d2 (errs0 ++ [errorDisplay m]) errs d1 h with ⟨hrun, herrs⟩
        refine ⟨?_, ?_⟩
        · show (match applyCall d (DocumentTask.insertAttribute k v e) with
            | some dx => runCalls dx rest
            | none => none) = some d1
          simp only [applyCall, hres]
          exact hrun
        · rw [herrs]
          simp only [applyCall, hres]
          simp
      | fatal d2 =>
        rw [show flushLoop d (DocumentTask.insertAttribute k v e :: rest) errs0
          = (match DocumentHandle.insert_attribute d k v e with
             | AttrResult.ok dx => flushLoop dx rest errs0
             | AttrResult.taskError msg dx => flushLoop dx rest (errs0 ++ [errorDisplay msg])
             | AttrResult.fatal _ => none) from rfl, hres] at h
        exact Option.noConfusion h
    | createElement name pid pos ns =>
      cases happ : applyCall d (DocumentTask.createElement name pid pos ns) with
      | some d2 =>
        rw [show flushLoop d (DocumentTask.createElement name pid pos ns :: rest) errs0
          = (match applyCall d (DocumentTask.createElement name pid pos ns) with
             | some dx => flushLoop dx rest errs0
             | none => none) from rfl, happ] at h
        rcases ih d2 errs0 errs d1 h with ⟨hrun, herrs⟩
        refine ⟨?_, ?_⟩
        · show (match applyCall d (DocumentTask.createElement name pid pos ns) with
            | some dx => runCalls dx rest
            | none => none) = some d1
          rw [happ]
          exact hrun
        · rw [herrs]
          rfl
      | none =>
        rw [show flushLoop d (DocumentTask.createElement name pid pos ns :: rest) errs0
          = (match applyCall d (DocumentTask.createElement name pid pos ns) with
             | some dx => flushLoop dx rest errs0
             | none => none) from rfl, happ] at h
        exact Option.noConfusion h
    | createText c pid =>
      cases happ : applyCall d (DocumentTask.createText c pid) with
      | some d2 =>
        rw [show flushLoop d (DocumentTask.createText c pid :: rest) errs0
          = (match applyCall d (DocumentTask.createText c pid) with
             | some dx => flushLoop dx rest errs0
             | none => none) from rfl, happ] at h
        rcases ih d2 errs0 errs d1 h with ⟨hrun, herrs⟩
        refine ⟨?_, ?_⟩
        · show (match applyCall d (DocumentTask.createText c pid) with
            | some dx => runCalls dx rest
            | none => none) = some d1
          rw [happ]
          exact hrun
        · rw [herrs]
          rfl
      | none =>
        rw [show flushLoop d (DocumentTask.createText c pid :: rest) errs0
          = (match applyCall d (DocumentTask.createText c pid) with
             | some dx => flushLoop dx rest errs0
             | none => none) from rfl, happ] at h
        exact Option.noConfusion h
    | createComment c pid =>
      cases happ : applyCall d (DocumentTask.createComment c pid) with
      | some d2 =>
        rw [show flushLoop d (DocumentTask.createComment c pid :: rest) errs0
          = (match applyCall d (DocumentTask.createComment c pid) with
             | some dx => flushLoop dx rest errs0
             | none => none) from rfl, happ] at h
        rcases ih d2 errs0 errs d1 h with ⟨hrun, herrs⟩
        refine ⟨?_, ?_⟩
        · show (match applyCall d (DocumentTask.createComment c pid) with
            | some dx => runCalls dx rest
            | none => none) = some d1
          rw [happ]
          exact hrun
        · rw [herrs]
          rfl
      | none =>
        rw [show flushLoop d (DocumentTask.createComment c pid :: rest) errs0
          = (match applyCall d (DocumentTask.createComment c pid) with
             | some dx => flushLoop dx rest errs0
             | none => none) from rfl, happ] at h
        exact Option.noConfusion h

theorem errAt_shape (d : Document) (ts : List DocumentTask) (i : Nat) (e : String)
    (h : errAt d ts i = some e) : errShape e := by
  unfold errAt at h
  cases hgi : ts.get? i <;> rw [hgi] at h
  · exact Option.noConfusion h
  · rename_i task
    cases task with
    | insertAttribute k v el =>
      cases hrc : runCalls d (ts.take i) with
      | none =>
        simp only [hrc] at h
        exact Option.noConfusion h
      | some di =>
        simp only [hrc] at h
        cases hres : DocumentHandle.insert_attribute di k v el <;> rw [hres] at h
        · exact Option.noConfusion h
        · cases h
          exact insert_attribute_error_shape di k v el _ _ hres
        · exact Option.noConfusion h
    | createElement name pid pos ns => exact Option.noConfusion h
    | createText c pid => exact Option.noConfusion h
    | createComment c pid => exact Option.noConfusion h

/-- **C6** When `flush()` returns, it has applied every queued task against
the live document in FIFO order with the immediate-path primitives (never
halting on a failed task), the queue is empty afterwards, and the returned
list carries exactly one message per failed task in task order, each
rendered as `"document task error: <message>"` with `<message>` one of the
three exact contract strings. -/
theorem C6_flush_error_collection (q : DocumentTaskQueue) (d : Document)
    (errs : List String) (q1 : DocumentTaskQueue) (d1 : Document)
    (h : q.flush d = some (errs, q1, d1)) :
    q1.tasks = [] ∧ q1.is_empty = true
    ∧ runCalls d q.tasks = some d1
    ∧ errs = taskErrorMessages d q.tasks
    ∧ ∀ e ∈ errs, errShape e := by
  unfold DocumentTaskQueue.flush at h
  cases hf : flushLoop d q.tasks [] <;> rw [hf] at h
  · exact Option.noConfusion h
  · rename_i r
    cases h
    rcases flushLoop_spec q.tasks d [] r.fst r.snd hf with ⟨hrun, herrs⟩
    rw [List.nil_append] at herrs
    refine ⟨rfl, rfl, hrun, herrs, ?_⟩
    intro e he
    rw [herrs] at he
    rcases List.mem_filterMap.mp he with ⟨i, -, hi⟩
    exact errAt_shape d q.tasks i e hi

/-- The error-batch scenario document: a fresh document with `<div>`
(identity 1) and a comment (identity 2) under it. -/
def errorBatchDoc : Document :=
  match runCalls DocumentBuilder.new_document
    [DocumentTask.createElement "div" 0 none "html",
     DocumentTask.createComment "content" 1] with
  | some d => d
  | none => Document.new

/-- The error-batch queue: five id-attribute insertions, of which all five
fail on replay (wrong node kind, unknown id, three invalid values). -/
def errorBatchQueue : DocumentTaskQueue :=
  enqueueAll (DocumentTaskQueue.new errorBatchDoc)
    [DocumentTask.insertAttribute "id" "myid" 2,
     DocumentTask.insertAttribute "id" "myid" 42,
     DocumentTask.insertAttribute "id" "my id" 1,
     DocumentTask.insertAttribute "id" "123" 1,
     DocumentTask.insertAttribute "id" "" 1]

/-- The errors returned by flushing the error-batch queue. -/
def c6Errs : List String :=
  match errorBatchQueue.flush errorBatchDoc with
  | some r => r.fst
  | none => []

/-- The queue state after flushing the error-batch queue. -/
def c6Queue : DocumentTaskQueue :=
  match errorBatchQueue.flush errorBatchDoc with
  | some r => r.snd.fst
  | none => errorBatchQueue

/-- The document after flushing the error-batch queue. -/
def c6Doc : Document :=
  match errorBatchQueue.flush errorBatchDoc with
  | some r => r.snd.snd
  | none => errorBatchDoc

/-- **C6 (witness)** Flushing the error-batch queue returns exactly the
five contract-rendered messages in task order, leaves the queue empty, and
applies the whole batch. -/
theorem C6_witness :
    errorBatchQueue.flush errorBatchDoc = some (c6Errs, c6Queue, c6Doc)
    ∧ c6Errs = ["document task error: Node ID 2 is not an element",
        "document task error: Node ID 42 not found",
        "document task error: Attribute value \x27my id\x27 did not pass validation",
        "document task error: Attribute value \x27123\x27 did not pass validation",
        "document task error: Attribute value \x27\x27 did not pass validation"]
    ∧ (c6Queue.tasks = [] ∧ c6Queue.is_empty = true
        ∧ runCalls errorBatchDoc errorBatchQueue.tasks = some c6Doc
        ∧ c6Errs = taskErrorMessages errorBatchDoc errorBatchQueue.tasks
        ∧ ∀ e ∈ c6Errs, errShape e) :=
  ⟨rfl, by decide,
    C6_flush_error_collection errorBatchQueue errorBatchDoc c6Errs c6Queue c6Doc rfl⟩

/-! ## The operation language over a document (for the invariant claims) -/

/-- A fresh node value carrying a payload (as produced by the `Node::new_*`
constructors before registration). -/
def freshNode (data : NodeData) : Node :=
  { id := 0, parent := none, children := [], data := data, is_registered := false }

/-- One completed tree operation of the mutation core.  `addNewNodeOp` and
`addNodeOp` operate on fresh nodes (as every in-repo caller does);
`flushOp` replays a queued task list. -/
inductive DocOp where
  | addNewNodeOp (data : NodeData) : DocOp
  | addNodeOp (data : NodeData) (parent_id : Nat) (position : Option Nat) : DocOp
  | attachOp (node_id parent_id : Nat) (position : Option Nat) : DocOp
  | detachOp (node_id : Nat) : DocOp
  | relocateOp (node_id parent_id : Nat) : DocOp
  | insertAttrOp (key value : String) (element_id : Nat) : DocOp
  | flushOp (ts : List DocumentTask) : DocOp
deriving DecidableEq

/-- Apply one operation; `none` models a panic (the operation did not
complete). -/
def applyDocOp (d : Document) : DocOp → Option Document
  | DocOp.addNewNodeOp data => some (d.add_new_node (freshNode data)).fst
  | DocOp.addNodeOp data pid pos => (d.add_node (freshNode data) pid pos).map (fun r => r.fst)
  | DocOp.attachOp n p pos => (d.attach_node_to_parent n p pos).map (fun r => r.snd)
  | DocOp.detachOp n => d.detach_node_from_parent n
  | DocOp.relocateOp n p => d.relocate n p
  | DocOp.insertAttrOp k v e => applyCall d (DocumentTask.insertAttribute k v e)
  | DocOp.flushOp ts => (flushLoop d ts []).map (fun r => r.snd)

/-- Run a sequence of operations, aborting on a panic. -/
def runDocOps (d : Document) : List DocOp → Option Document
  | [] => some d
  | op :: rest =>
    match applyDocOp d op with
    | some d1 => runDocOps d1 rest
    | none => none

/-! ## Shape lemmas for detach and relocate -/

theorem detach_eq_none_of_get_none (d : Document) (n : Nat)
    (hg : d.get_node_by_id n = none) : d.detach_node_from_parent n = none := by
  unfold Document.detach_node_from_parent
  rw [hg]

theorem detach_eq_of_get (d : Document) (n : Nat) (nd : Node)
    (hg : d.get_node_by_id n = some nd) :
    d.detach_node_from_parent n
      = (match nd.parent with
         | none => some d
         | some parent_id =>
           (match d.get_node_by_id parent_id with
            | none => none
            | some parent_node => detachUpdate d n parent_id parent_node)) := by
  unfold Document.detach_node_from_parent
  rw [hg]

theorem detachUpdate_cases (d : Document) (n a : Nat) (pn : Node) :
    ((detachMid d n a pn).get_node_by_id n = none ∧ detachUpdate d n a pn = none)
    ∨ (∃ n2, (detachMid d n a pn).get_node_by_id n = some n2
        ∧ detachUpdate d n a pn = some { detachMid d n a pn with arena := (detachMid d n a pn).arena.set_node n { n2 with parent := none } }) := by
  unfold detachUpdate
  cases hgn : (detachMid d n a pn).get_node_by_id n
  · exact Or.inl ⟨rfl, rfl⟩
  · exact Or.inr ⟨_, rfl, rfl⟩

theorem detachMid_other (d : Document) (n a : Nat) (pn : Node) :
    (detachMid d n a pn).named_id_elements = d.named_id_elements
    ∧ (detachMid d n a pn).doctype = d.doctype
    ∧ (detachMid d n a pn).quirks_mode = d.quirks_mode
    ∧ (detachMid d n a pn).arena.nodes.length = d.arena.nodes.length :=
  ⟨rfl, rfl, rfl, length_set_node _ _ _⟩

theorem detach_shape (d : Document) (n : Nat) (d1 : Document)
    (h : d.detach_node_from_parent n = some d1) :
    d1.named_id_elements = d.named_id_elements ∧ d1.doctype = d.doctype
    ∧ d1.quirks_mode = d.quirks_mode
    ∧ d1.arena.nodes.length = d.arena.nodes.length := by
  cases hg : d.get_node_by_id n with
  | none =>
    rw [detach_eq_none_of_get_none d n hg] at h
    exact Option.noConfusion h
  | some nd =>
    rw [detach_eq_of_get d n nd hg] at h
    cases hp : nd.parent with
    | none =>
      rw [hp] at h
      have h2 : some d = some d1 := h
      cases h2
      exact ⟨rfl, rfl, rfl, rfl⟩
    | some a =>
      rw [hp] at h
      have h3 : (match d.get_node_by_id a with
        | none => none
        | some parent_node => detachUpdate d n a parent_node) = some d1 := h
      clear h
      cases hga : d.get_node_by_id a with
      | none => rw [hga] at h3; exact Option.noConfusion h3
      | some pn =>
        rw [hga] at h3
        have h4 : detachUpdate d n a pn = some d1 := h3
        clear h3
        rcases detachUpdate_cases d n a pn with ⟨-, heq⟩ | ⟨n2, -, heq⟩ <;> rw [heq] at h4
        · exact Option.noConfusion h4
        · have h2 : some ({ detachMid d n a pn with arena := (detachMid d n a pn).arena.set_node n { n2 with parent := none } } : Document) = some d1 := h4
          cases h2
          refine ⟨rfl, rfl, rfl, ?_⟩
          show ((detachMid d n a pn).arena.set_node n _).nodes.length = _
          rw [length_set_node]
          exact (detachMid_other d n a pn).2.2.2

theorem relocate_eq_none_of_get_none (d : Document) (n p : Nat)
    (hg : d.get_node_by_id n = none) : d.relocate n p = none := by
  unfold Document.relocate
  rw [hg]

theorem relocate_eq_of_get (d : Document) (n p : Nat) (nd : Node)
    (hg : d.get_node_by_id n = some nd) :
    d.relocate n p
      = (if !nd.is_registered then none
         else if nd.parent == some p then some d
         else
           (match d.detach_node_from_parent n with
            | none => none
            | some d1 =>
              (match d1.attach_node_to_parent n p none with
               | some pr => some pr.snd
               | none => none))) := by
  unfold Document.relocate
  rw [hg]

theorem relocate_shape (d : Document) (n p : Nat) (d1 : Document)
    (h : d.relocate n p = some d1) :
    d1.named_id_elements = d.named_id_elements ∧ d1.doctype = d.doctype
    ∧ d1.quirks_mode = d.quirks_mode
    ∧ d1.arena.nodes.length = d.arena.nodes.length := by
  cases hg : d.get_node_by_id n with
  | none =>
    rw [relocate_eq_none_of_get_none d n p hg] at h
    exact Option.noConfusion h
  | some nd =>
    rw [relocate_eq_of_get d n p nd hg] at h
    cases hreg : !nd.is_registered with
    | true =>
      rw [hreg] at h
      simp only [if_true] at h
      exact Option.noConfusion h
    | false =>
      rw [hreg] at h
      simp only [Bool.false_eq_true, if_false] at h
      cases hpp : nd.parent == some p with
      | true =>
        rw [hpp] at h
        simp only [if_true] at h
        have h2 : some d = some d1 := h
        cases h2
        exact ⟨rfl, rfl, rfl, rfl⟩
      | false =>
        rw [hpp] at h
        simp only [Bool.false_eq_true, if_false] at h
        cases hdet : d.detach_node_from_parent n with
        | none => rw [hdet] at h; exact Option.noConfusion h
        | some dmid =>
          rw [hdet] at h
          have h3 : (match dmid.attach_node_to_parent n p none with
            | some pr => some pr.snd
            | none => none) = some d1 := h
          clear h
          cases hatt : dmid.attach_node_to_parent n p none with
          | none => rw [hatt] at h3; exact Option.noConfusion h3
          | some pr =>
            rw [hatt] at h3
            have h2 : some pr.snd = some d1 := h3
            cases h2
            rcases detach_shape d n dmid hdet with ⟨hn1, hd1, hq1, hl1⟩
            rcases attach_shape dmid n p none pr.fst pr.snd (by rw [← hatt]) with ⟨hl2, hn2, hd2, hq2⟩
            exact ⟨hn2.trans hn1, hd2.trans hd1, hq2.trans hq1, hl2.trans hl1⟩

/-! ## C8 — first-wins named-id indexing -/

theorem nidContains_of_get {m : List (String × Nat)} {k : String} {n : Nat}
    (h : nidGet m k = some n) : nidContains m k = true := by
  unfold nidGet at h
  unfold nidContains
  cases hf : m.find? (fun p => p.fst == k)
  · rw [hf] at h; exact Option.noConfusion h
  · rfl

theorem add_node_split (d : Document) (node : Node) (pid : Nat) (pos : Option Nat)
    (d1 : Document) (nid2 : Nat) (h : d.add_node node pid pos = some (d1, nid2)) :
    nid2 = (d.add_new_node node).snd ∧
    ∃ b, (d.add_new_node node).fst.attach_node_to_parent (d.add_new_node node).snd pid pos
      = some (b, d1) := by
  rw [show d.add_node node pid pos
    = (match (d.add_new_node node).fst.attach_node_to_parent (d.add_new_node node).snd pid pos with
       | some pr => some (pr.snd, (d.add_new_node node).snd)
       | none => none) from rfl] at h
  cases hatt : (d.add_new_node node).fst.attach_node_to_parent (d.add_new_node node).snd pid pos with
  | none => rw [hatt] at h; exact Option.noConfusion h
  | some pr =>
    rw [hatt] at h
    have h2 : some (pr.snd, (d.add_new_node node).snd) = some (d1, nid2) := h
    cases h2
    exact ⟨rfl, pr.fst, rfl⟩

theorem named_extends_applyCall (d : Document) (t : DocumentTask) (d1 : Document)
    (h : applyCall d t = some d1) :
    ∃ l, d1.named_id_elements = d.named_id_elements ++ l := by
  cases t with
  | createElement name pid pos ns =>
    rcases create_element_id d name pid pos ns with ⟨d2, heq, -⟩
    simp only [applyCall, heq, Option.map_some] at h
    cases h
    rcases add_node_split d _ pid pos d2 _ heq with ⟨-, b, hatt⟩
    rcases attach_shape _ _ _ _ _ _ hatt with ⟨-, hnm, -, -⟩
    rcases add_new_node_fresh_shape d (Node.new_element name [] ns) rfl with
      ⟨nd, -, -, -, -, -, -, hnamed⟩
    rcases hnamed with hn1 | ⟨snid, hn1⟩
    · exact ⟨[], by rw [hnm, hn1]; simp⟩
    · exact ⟨[(snid, d.arena.nodes.length)], by rw [hnm, hn1]⟩
  | createText c pid =>
    rcases create_text_length d c pid with ⟨d2, heq, -⟩
    simp only [applyCall, heq] at h
    cases h
    have heq2 : d.add_node (Node.new_text c) pid none = some (d1, d.arena.nodes.length) := by
      rcases add_node_fresh d (Node.new_text c) pid none rfl with ⟨d3, heq3, -⟩
      have hct : d.create_text c pid = some d3 := by
        unfold Document.create_text
        rw [heq3]
        rfl
      rw [heq] at hct
      cases hct
      exact heq3
    rcases add_node_split d _ pid none d1 _ heq2 with ⟨-, b, hatt⟩
    rcases attach_shape _ _ _ _ _ _ hatt with ⟨-, hnm, -, -⟩
    rcases add_new_node_fresh_shape d (Node.new_text c) rfl with
      ⟨nd, -, -, -, -, -, -, hnamed⟩
    rcases hnamed with hn1 | ⟨snid, hn1⟩
    · exact ⟨[], by rw [hnm, hn1]; simp⟩
    · exact ⟨[(snid, d.arena.nodes.length)], by rw [hnm, hn1]⟩
  | createComment c pid =>
    rcases create_comment_length d c pid with ⟨d2, heq, -⟩
    simp only [applyCall, heq] at h
    cases h
    have heq2 : d.add_node (Node.new_comment c) pid none = some (d1, d.arena.nodes.length) := by
      rcases add_node_fresh d (Node.new_comment c) pid none rfl with ⟨d3, heq3, -⟩
      have hct : d.create_comment c pid = some d3 := by
        unfold Document.create_comment
        rw [heq3]
        rfl
      rw [heq] at hct
      cases hct
      exact heq3
    rcases add_node_split d _ pid none d1 _ heq2 with ⟨-, b, hatt⟩
    rcases attach_shape _ _ _ _ _ _ hatt with ⟨-, hnm, -, -⟩
    rcases add_new_node_fresh_shape d (Node.new_comment c) rfl with
      ⟨nd, -, -, -, -, -, -, hnamed⟩
    rcases hnamed with hn1 | ⟨snid, hn1⟩
    · exact ⟨[], by rw [hnm, hn1]; simp⟩
    · exact ⟨[(snid, d.arena.nodes.length)], by rw [hnm, hn1]⟩
  | insertAttribute k v e =>
    rcases insert_attribute_shape d k v e with ⟨m, heq⟩ | ⟨d2, hres, -, -, -, hnamed, -⟩
    · simp only [applyCall, heq] at h
      cases h
      exact ⟨[], by simp⟩
    · rcases hres with heq | heq <;> simp only [applyCall, heq] at h
      · cases h
        rcases hnamed with hn1 | hn1
        · exact ⟨[], by rw [hn1]; simp⟩
        · exact ⟨[(v, e)], hn1⟩
      · exact Option.noConfusion h

theorem named_extends_runCalls (ts : List DocumentTask) :
    ∀ d d1, runCalls d ts = some d1 →
      ∃ l, d1.named_id_elements = d.named_id_elements ++ l := by
  induction ts with
  | nil =>
    intro d d1 h
    cases h
    exact ⟨[], by simp⟩
  | cons t rest ih =>
    intro d d1 h
    unfold runCalls at h
    cases happ : applyCall d t <;> rw [happ] at h
    · exact Option.noConfusion h
    · rcases named_extends_applyCall d t _ happ with ⟨l1, h1⟩
      rcases ih _ d1 h with ⟨l2, h2⟩
      exact ⟨l1 ++ l2, by rw [h2, h1, List.append_assoc]⟩

theorem named_extends_applyDocOp (d : Document) (op : DocOp) (d1 : Document)
    (h : applyDocOp d op = some d1) :
    ∃ l, d1.named_id_elements = d.named_id_elements ++ l := by
  cases op with
  | addNewNodeOp data =>
    simp only [applyDocOp] at h
    cases h
    rcases add_new_node_fresh_shape d (freshNode data) rfl with
      ⟨nd, -, -, -, -, -, -, hnamed⟩
    rcases hnamed with hn1 | ⟨snid, hn1⟩
    · exact ⟨[], by rw [hn1]; simp⟩
    · exact ⟨[(snid, d.arena.nodes.length)], hn1⟩
  | addNodeOp data pid pos =>
    rcases add_node_fresh d (freshNode data) pid pos rfl with ⟨d2, heq, -⟩
    simp only [applyDocOp, heq, Option.map_some] at h
    cases h
    rcases add_node_split d _ pid pos d2 _ heq with ⟨-, b, hatt⟩
    rcases attach_shape _ _ _ _ _ _ hatt with ⟨-, hnm, -, -⟩
    rcases add_new_node_fresh_shape d (freshNode data) rfl with
      ⟨nd, -, -, -, -, -, -, hnamed⟩
    rcases hnamed with hn1 | ⟨snid, hn1⟩
    · exact ⟨[], by rw [hnm, hn1]; simp⟩
    · exact ⟨[(snid, d.arena.nodes.length)], by rw [hnm, hn1]⟩
  | attachOp n p pos =>
    simp only [applyDocOp] at h
    cases hatt : d.attach_node_to_parent n p pos <;> rw [hatt] at h
    · exact Option.noConfusion h
    · rename_i pr
      have h2 : some pr.snd = some d1 := h
      cases h2
      rcases attach_shape _ _ _ _ _ _ (show d.attach_node_to_parent n p pos = some (pr.fst, pr.snd) from by rw [hatt]) with ⟨-, hnm, -, -⟩
      exact ⟨[], by rw [hnm]; simp⟩
  | detachOp n =>
    simp only [applyDocOp] at h
    rcases detach_shape d n d1 h with ⟨hnm, -, -, -⟩
    exact ⟨[], by rw [hnm]; simp⟩
  | relocateOp n p =>
    simp only [applyDocOp] at h
    rcases relocate_shape d n p d1 h with ⟨hnm, -, -, -⟩
    exact ⟨[], by rw [hnm]; simp⟩
  | insertAttrOp k v e =>
    simp only [applyDocOp] at h
    exact named_extends_applyCall d (DocumentTask.insertAttribute k v e) d1 h
  | flushOp ts =>
    simp only [applyDocOp] at h
    cases hf : flushLoop d ts [] <;> rw [hf] at h
    · exact Option.noConfusion h
    · rename_i r
      have h2 : some r.snd = some d1 := h
      cases h2
      rcases flushLoop_spec ts d [] r.fst r.snd hf with ⟨hrun, -⟩
      exact named_extends_runCalls ts d r.snd hrun

theorem named_extends_runDocOps (ops : List DocOp) :
    ∀ d d1, runDocOps d ops = some d1 →
      ∃ l, d1.named_id_elements = d.named_id_elements ++ l := by
  induction ops with
  | nil =>
    intro d d1 h
    cases h
    exact ⟨[], by simp⟩
  | cons op rest ih =>
    intro d d1 h
    unfold runDocOps at h
    cases happ : applyDocOp d op <;> rw [happ] at h
    · exact Option.noConfusion h
    · rcases named_extends_applyDocOp d op _ happ with ⟨l1, h1⟩
      rcases ih _ d1 h with ⟨l2, h2⟩
      exact ⟨l1 ++ l2, by rw [h2, h1, List.append_assoc]⟩

/-- **C8** First-wins id indexing.  (i) When an element is assigned an id
string that is already indexed (a duplicate), the call returns success, the
attribute is stored on the element, and the index keeps pointing at the
previously indexed node.  (ii) Once the index maps a string to a node, any
sequence of completed operations (registrations, attribute insertions,
attaches, detaches, relocates, flushes) leaves that mapping in place — the
index is never overwritten for the document's lifetime. -/
theorem C8_first_wins_id_index :
    (∀ (d : Document) (v : String) (e n0 : Nat) (node : Node),
        nidGet d.named_id_elements v = some n0 →
        d.get_node_by_id e = some node → isElementNode node = true →
        d.validate_id_attribute_value v = true →
        ∃ d1, DocumentHandle.insert_attribute d "id" v e = AttrResult.ok d1
          ∧ nidGet d1.named_id_elements v = some n0
          ∧ nodeAttr d1 e "id" = some v)
    ∧ (∀ (d : Document) (ops : List DocOp) (d1 : Document) (k : String) (n : Nat),
        runDocOps d ops = some d1 →
        nidGet d.named_id_elements k = some n →
        nidGet d1.named_id_elements k = some n) := by
  constructor
  · intro d v e n0 node hidx hg hel hv
    rcases hd : node.data with _ | ⟨nm, pb, sy⟩ | tv | cv | ⟨name, namespace_, attrs, nid⟩
    · simp [isElementNode, hd] at hel
    · simp [isElementNode, hd] at hel
    · simp [isElementNode, hd] at hel
    · simp [isElementNode, hd] at hel
    · rw [insert_attribute_element d "id" v e node name namespace_ attrs nid hv hg hd]
      have hlt : e < d.arena.nodes.length := lt_of_get_node_eq_some hg
      have hcont : nidContains d.named_id_elements v = true := nidContains_of_get hidx
      simp only [hcont, Bool.not_true, Bool.false_eq_true, if_false, if_true]
      refine ⟨_, rfl, hidx, ?_⟩
      rw [nodeAttr_arena_set _ e _ rfl hlt "id"]
      simp [assocGet_insert_self]
  · intro d ops d1 k n hrun hidx
    rcases named_extends_runDocOps ops d d1 hrun with ⟨l, hl⟩
    rw [hl]
    exact nidGet_append_of_some l hidx

/-- `sampleDoc` after assigning id `"myid"` to element 1. -/
def c8Doc : Document :=
  match DocumentHandle.insert_attribute sampleDoc "id" "myid" 1 with
  | AttrResult.ok d => d
  | _ => sampleDoc

/-- The element stored at identity 2 of `c8Doc`. -/
def c8Node2 : Node :=
  match c8Doc.get_node_by_id 2 with
  | some n => n
  | none => Node.new_document

/-- `c8Doc` after detaching node 1. -/
def c8After : Document :=
  match runDocOps c8Doc [DocOp.detachOp 1] with
  | some dx => dx
  | none => Document.new

/-- **C8 (witness)** With `"myid"` already indexed to element 1, assigning
`"myid"` to element 2 succeeds, stores the attribute, and the index still
maps `"myid"` to 1; the mapping also survives a further completed
operation. -/
theorem C8_witness :
    nidGet c8Doc.named_id_elements "myid" = some 1
    ∧ (∃ d1, DocumentHandle.insert_attribute c8Doc "id" "myid" 2 = AttrResult.ok d1
        ∧ nidGet d1.named_id_elements "myid" = some 1
        ∧ nodeAttr d1 2 "id" = some "myid")
    ∧ runDocOps c8Doc [DocOp.detachOp 1] = some c8After
    ∧ nidGet c8After.named_id_elements "myid" = some 1 :=
  ⟨by decide,
    C8_first_wins_id_index.1 c8Doc "myid" 2 1 c8Node2 (by decide) rfl (by decide) (by decide),
    rfl,
    C8_first_wins_id_index.2 c8Doc [DocOp.detachOp 1] c8After "myid" 1 rfl (by decide)⟩

/-! ## Well-formedness invariants of the document tree -/

/-- Parent/child symmetry (spec invariant 2): a stored node is listed among
a stored parent's children exactly when its parent field names that
parent. -/
def Symmetry (d : Document) : Prop :=
  ∀ i j ni nj, d.arena.get_node i = some ni → d.arena.get_node j = some nj →
    (i ∈ nj.children ↔ ni.parent = some j)

/-- Every id in a children list is an allocated identity. -/
def ChildrenAlloc (d : Document) : Prop :=
  ∀ j nj, d.arena.get_node j = some nj → ∀ c ∈ nj.children, c < d.arena.nodes.length

/-- Every parent field names an allocated identity. -/
def ParentAlloc (d : Document) : Prop :=
  ∀ i ni, d.arena.get_node i = some ni → ∀ p, ni.parent = some p → p < d.arena.nodes.length

/-- No stored node is its own parent. -/
def NoSelfParent (d : Document) : Prop :=
  ∀ i ni, d.arena.get_node i = some ni → ni.parent ≠ some i

/-- The invariant bundle maintained across completed operations. -/
def Wf (d : Document) : Prop :=
  Symmetry d ∧ ChildrenAlloc d ∧ ParentAlloc d ∧ NoSelfParent d

theorem get_node_set1 (a : NodeArena) {p : Nat} (P : Node)
    (hp : p < a.nodes.length) :
    ∀ i, (a.set_node p P).get_node i = if i = p then some P else a.get_node i := by
  intro i
  by_cases hip : i = p
  · subst hip
    rw [if_pos rfl]
    exact get_node_set_self a i P hp
  · rw [if_neg hip]
    exact get_node_set_ne a p i P (fun hq => hip hq.symm)

theorem get_node_set2 (a : NodeArena) {p n : Nat} (P N : Node) (hpn : p ≠ n)
    (hp : p < a.nodes.length) (hn : n < a.nodes.length) :
    ∀ i, ((a.set_node p P).set_node n N).get_node i
      = if i = n then some N else if i = p then some P else a.get_node i := by
  intro i
  by_cases hin : i = n
  · subst hin
    rw [if_pos rfl]
    exact get_node_set_self (a.set_node p P) i N (by rw [length_set_node]; exact hn)
  · rw [if_neg hin, get_node_set_ne (a.set_node p P) n i N (fun hq => hin hq.symm)]
    exact get_node_set1 a P hp i

theorem mem_clampInsert (ch : List Nat) (pos : Option Nat) (y x : Nat) :
    x ∈ clampInsert ch pos y ↔ x = y ∨ x ∈ ch := by
  cases pos with
  | none => simp [clampInsert, or_comm]
  | some q => simp [clampInsert, mem_insertAt]

theorem mem_filter_ne (ch : List Nat) (n x : Nat) :
    x ∈ ch.filter (fun id => id != n) ↔ x ∈ ch ∧ x ≠ n := by
  rw [List.mem_filter]
  simp

/-- Transfer of the invariant bundle along a document change that preserves
the store size and every node's parent and children. -/
theorem wf_transfer (d d1 : Document)
    (hlen : d1.arena.nodes.length = d.arena.nodes.length)
    (hpar : ∀ i, parentAt d1 i = parentAt d i)
    (hch : ∀ i, childrenAt d1 i = childrenAt d i)
    (hW : Wf d) : Wf d1 := by
  obtain ⟨hS, hC, hP, hN⟩ := hW
  have hget : ∀ i ni, d1.arena.get_node i = some ni →
      ∃ ni0, d.arena.get_node i = some ni0
        ∧ ni.parent = ni0.parent ∧ ni.children = ni0.children := by
    intro i ni hgi
    have hlt : i < d.arena.nodes.length := by
      rw [← hlen]
      exact lt_of_get_node_eq_some hgi
    rcases get_node_eq_some_of_lt hlt with ⟨ni0, hgi0⟩
    refine ⟨ni0, hgi0, ?_, ?_⟩
    · have := hpar i
      unfold parentAt Document.get_node_by_id at this
      rw [hgi, hgi0] at this
      exact Option.some.inj this
    · have := hch i
      unfold childrenAt Document.get_node_by_id at this
      rw [hgi, hgi0] at this
      exact Option.some.inj this
  have hget2 : ∀ i ni0, d.arena.get_node i = some ni0 →
      ∃ ni, d1.arena.get_node i = some ni
        ∧ ni.parent = ni0.parent ∧ ni.children = ni0.children := by
    intro i ni0 hgi0
    have hlt : i < d1.arena.nodes.length := by
      rw [hlen]
      exact lt_of_get_node_eq_some hgi0
    rcases get_node_eq_some_of_lt hlt with ⟨ni, hgi⟩
    rcases hget i ni hgi with ⟨ni0x, hgi0x, hp2, hc2⟩
    rw [hgi0] at hgi0x
    cases hgi0x
    exact ⟨ni, hgi, hp2, hc2⟩
  refine ⟨?_, ?_, ?_, ?_⟩
  · intro i j ni nj hgi hgj
    rcases hget i ni hgi with ⟨ni0, hgi0, hpi, -⟩
    rcases hget j nj hgj with ⟨nj0, hgj0, -, hcj⟩
    rw [hcj, hpi]
    exact hS i j ni0 nj0 hgi0 hgj0
  · intro j nj hgj c hc
    rcases hget j nj hgj with ⟨nj0, hgj0, -, hcj⟩
    rw [hlen]
    exact hC j nj0 hgj0 c (by rw [← hcj]; exact hc)
  · intro i ni hgi p hp
    rcases hget i ni hgi with ⟨ni0, hgi0, hpi, -⟩
    rw [hlen]
    exact hP i ni0 hgi0 p (by rw [← hpi]; exact hp)
  · intro i ni hgi
    rcases hget i ni hgi with ⟨ni0, hgi0, hpi, -⟩
    rw [hpi]
    exact hN i ni0 hgi0

/-- Registering a fresh node (parentless, childless) preserves the
invariant bundle. -/
theorem wf_append_fresh (d d1 : Document) (nd : Node)
    (hp : nd.parent = none) (hc : nd.children = [])
    (harena : d1.arena.nodes = d.arena.nodes ++ [nd])
    (hW : Wf d) : Wf d1 := by
  obtain ⟨hS, hC, hP, hN⟩ := hW
  have hlen : d1.arena.nodes.length = d.arena.nodes.length + 1 := by
    rw [harena]
    simp
  have hget : ∀ i, d1.arena.get_node i
      = if i = d.arena.nodes.length then some nd else d.arena.get_node i := by
    intro i
    by_cases hi : i = d.arena.nodes.length
    · rw [hi, if_pos rfl]
      show (NodeArena.mk d1.arena.nodes).get_node d.arena.nodes.length = some nd
      rw [harena]
      exact get_node_append_last d.arena nd
    · rw [if_neg hi]
      rcases Nat.lt_or_ge i d.arena.nodes.length with hlt | hge
      · show (NodeArena.mk d1.arena.nodes).get_node i = _
        rw [harena]
        exact get_node_append_left nd hlt
      · have hgt : d.arena.nodes.length + 1 ≤ i := by omega
        show (NodeArena.mk d1.arena.nodes).get_node i = _
        rw [harena, get_node_append_beyond d.arena nd hgt]
        rw [NodeArena.get_node, List.getElem?_eq_none_iff.mpr (by omega)]
  refine ⟨?_, ?_, ?_, ?_⟩
  · intro i j ni nj hgi hgj
    rw [hget] at hgi hgj
    by_cases hj : j = d.arena.nodes.length
    · rw [if_pos hj] at hgj
      cases hgj
      rw [hc]
      simp only [List.not_mem_nil, false_iff]
      by_cases hi : i = d.arena.nodes.length
      · rw [if_pos hi] at hgi
        cases hgi
        rw [hp]
        intro hq
        exact Option.noConfusion hq
      · rw [if_neg hi] at hgi
        intro hq
        have := hP i ni hgi _ hq
        omega
    · rw [if_neg hj] at hgj
      by_cases hi : i = d.arena.nodes.length
      · rw [if_pos hi] at hgi
        cases hgi
        subst hi
        constructor
        · intro hmem
          have := hC j nj hgj _ hmem
          omega
        · intro hq
          rw [hp] at hq
          exact Option.noConfusion hq
      · rw [if_neg hi] at hgi
        exact hS i j ni nj hgi hgj
  · intro j nj hgj c hcmem
    rw [hget] at hgj
    by_cases hj : j = d.arena.nodes.length
    · rw [if_pos hj] at hgj
      cases hgj
      rw [hc] at hcmem
      exact absurd hcmem (List.not_mem_nil c)
    · rw [if_neg hj] at hgj
      have := hC j nj hgj c hcmem
      omega
  · intro i ni hgi p hp2
    rw [hget] at hgi
    by_cases hi : i = d.arena.nodes.length
    · rw [if_pos hi] at hgi
      cases hgi
      rw [hp] at hp2
      exact Option.noConfusion hp2
    · rw [if_neg hi] at hgi
      have := hP i ni hgi p hp2
      omega
  · intro i ni hgi
    rw [hget] at hgi
    by_cases hi : i = d.arena.nodes.length
    · rw [if_pos hi] at hgi
      cases hgi
      rw [hp]
      intro hq
      exact Option.noConfusion hq
    · rw [if_neg hi] at hgi
      exact hN i ni hgi

theorem attachChildren_eq (d : Document) (n p : Nat) (pos : Option Nat) (pn : Node)
    (hg : d.get_node_by_id p = some pn) :
    attachChildren d n p pos = { d with arena := d.arena.set_node p { pn with children := clampInsert pn.children pos n } } := by
  unfold attachChildren
  rw [hg]

theorem wf_attach_core (d : Document) (n p : Nat) (pos : Option Nat)
    (nd pn : Node) (hW : Wf d)
    (hgn : d.arena.get_node n = some nd) (hndp : nd.parent = none)
    (hgp : d.arena.get_node p = some pn) (hpne : p ≠ n) :
    Wf { d with arena := (d.arena.set_node p { pn with children := clampInsert pn.children pos n }).set_node n { nd with parent := some p } } := by
  obtain ⟨hS, hC, hP, hN⟩ := hW
  have hlt_p : p < d.arena.nodes.length := lt_of_get_node_eq_some hgp
  have hlt_n : n < d.arena.nodes.length := lt_of_get_node_eq_some hgn
  have hfin := get_node_set2 d.arena
    { pn with children := clampInsert pn.children pos n } { nd with parent := some p }
    hpne hlt_p hlt_n
  have hlen : ((d.arena.set_node p { pn with children := clampInsert pn.children pos n }).set_node n { nd with parent := some p }).nodes.length = d.arena.nodes.length := by
    rw [length_set_node, length_set_node]
  have hnmem : ∀ j nj, d.arena.get_node j = some nj → n ∉ nj.children := by
    intro j nj hgj hmem
    have hx := (hS n j nd nj hgn hgj).mp hmem
    rw [hndp] at hx
    exact Option.noConfusion hx
  refine ⟨?_, ?_, ?_, ?_⟩
  · intro i j ni nj hgi hgj
    rw [hfin i] at hgi
    rw [hfin j] at hgj
    by_cases hj : j = n
    · rw [if_pos hj] at hgj
      cases hgj
      by_cases hi : i = n
      · rw [if_pos hi] at hgi
        cases hgi
        show i ∈ nd.children ↔ some p = some j
        constructor
        · intro hmem
          rw [hi] at hmem
          exact absurd hmem (hnmem n nd hgn)
        · intro hq
          rw [hj] at hq
          exact absurd (Option.some.inj hq) hpne
      · rw [if_neg hi] at hgi
        by_cases hip : i = p
        · rw [if_pos hip] at hgi
          cases hgi
          show i ∈ nd.children ↔ pn.parent = some j
          rw [hj]
          have hgi2 : d.arena.get_node i = some pn := by rw [hip]; exact hgp
          exact hS i n pn nd hgi2 hgn
        · rw [if_neg hip] at hgi
          show i ∈ nd.children ↔ ni.parent = some j
          rw [hj]
          exact hS i n ni nd hgi hgn
    · rw [if_neg hj] at hgj
      by_cases hjp : j = p
      · rw [if_pos hjp] at hgj
        cases hgj
        show i ∈ clampInsert pn.children pos n ↔ ni.parent = some j
        rw [mem_clampInsert]
        by_cases hi : i = n
        · rw [if_pos hi] at hgi
          cases hgi
          show i = n ∨ i ∈ pn.children ↔ some p = some j
          rw [hjp]
          exact ⟨fun _ => rfl, fun _ => Or.inl hi⟩
        · rw [if_neg hi] at hgi
          by_cases hip : i = p
          · rw [if_pos hip] at hgi
            cases hgi
            show i = n ∨ i ∈ pn.children ↔ pn.parent = some j
            rw [hjp]
            have hgi2 : d.arena.get_node i = some pn := by rw [hip]; exact hgp
            constructor
            · rintro (hq | hq)
              · exact absurd hq hi
              · exact (hS i p pn pn hgi2 hgp).mp hq
            · intro hq
              exact Or.inr ((hS i p pn pn hgi2 hgp).mpr hq)
          · rw [if_neg hip] at hgi
            constructor
            · rintro (hq | hq)
              · exact absurd hq hi
              · rw [hjp]
                exact (hS i p ni pn hgi hgp).mp hq
            · intro hq
              rw [hjp] at hq
              exact Or.inr ((hS i p ni pn hgi hgp).mpr hq)
      · rw [if_neg hjp] at hgj
        by_cases hi : i = n
        · rw [if_pos hi] at hgi
          cases hgi
          show i ∈ nj.children ↔ some p = some j
          constructor
          · intro hmem
            rw [hi] at hmem
            exact absurd hmem (hnmem j nj hgj)
          · intro hq
            exact absurd (Option.some.inj hq).symm hjp
        · rw [if_neg hi] at hgi
          by_cases hip : i = p
          · rw [if_pos hip] at hgi
            cases hgi
            show i ∈ nj.children ↔ pn.parent = some j
            have hgi2 : d.arena.get_node i = some pn := by rw [hip]; exact hgp
            exact hS i j pn nj hgi2 hgj
          · rw [if_neg hip] at hgi
            exact hS i j ni nj hgi hgj
  · intro j nj hgj c hc
    rw [hfin j] at hgj
    show c < _
    rw [hlen]
    by_cases hj : j = n
    · rw [if_pos hj] at hgj
      cases hgj
      exact hC n nd hgn c hc
    · rw [if_neg hj] at hgj
      by_cases hjp : j = p
      · rw [if_pos hjp] at hgj
        cases hgj
        rcases (mem_clampInsert pn.children pos n c).mp hc with hq | hq
        · rw [hq]
          exact hlt_n
        · exact hC p pn hgp c hq
      · rw [if_neg hjp] at hgj
        exact hC j nj hgj c hc
  · intro i ni hgi q hq
    rw [hfin i] at hgi
    show q < _
    rw [hlen]
    by_cases hi : i = n
    · rw [if_pos hi] at hgi
      cases hgi
      cases Option.some.inj hq
      exact hlt_p
    · rw [if_neg hi] at hgi
      by_cases hip : i = p
      · rw [if_pos hip] at hgi
        cases hgi
        exact hP p pn hgp q hq
      · rw [if_neg hip] at hgi
        exact hP i ni hgi q hq
  · intro i ni hgi
    rw [hfin i] at hgi
    by_cases hi : i = n
    · rw [if_pos hi] at hgi
      cases hgi
      show some p ≠ some i
      intro hq
      exact hpne ((Option.some.inj hq).trans hi)
    · rw [if_neg hi] at hgi
      by_cases hip : i = p
      · rw [if_pos hip] at hgi
        cases hgi
        show pn.parent ≠ some i
        rw [hip]
        exact hN p pn hgp
      · rw [if_neg hip] at hgi
        exact hN i ni hgi

/-! ## Side conditions for the amended invariants -/

/-- The node resolves and currently has no parent. -/
def parentlessAt (d : Document) (n : Nat) : Bool :=
  match d.get_node_by_id n with
  | some nd => nd.parent == none
  | none => false

/-- The identity resolves to a stored node. -/
def storedAt (d : Document) (i : Nat) : Bool := (d.get_node_by_id i).isSome

/-- Every create task's parent id resolves at its replay position (tracking
the store growth of one registration per create task). -/
def goodTasksB : Nat → List DocumentTask → Bool
  | _, [] => true
  | len, DocumentTask.createElement _ pid _ _ :: r => decide (pid < len) && goodTasksB (len + 1) r
  | len, DocumentTask.createText _ pid :: r => decide (pid < len) && goodTasksB (len + 1) r
  | len, DocumentTask.createComment _ pid :: r => decide (pid < len) && goodTasksB (len + 1) r
  | len, DocumentTask.insertAttribute _ _ _ :: r => goodTasksB len r

/-- The per-operation proviso of the amended invariant claims: a direct
attach targets a parentless node and a stored parent; an add or relocate
targets a stored parent; a flush's create tasks name stored parents. -/
def sideOK (d : Document) : DocOp → Bool
  | DocOp.addNodeOp _ pid _ => decide (pid < d.arena.nodes.length)
  | DocOp.attachOp n p _ => parentlessAt d n && storedAt d p
  | DocOp.relocateOp _ p => storedAt d p
  | DocOp.flushOp ts => goodTasksB d.arena.nodes.length ts
  | _ => true

/-- The proviso holds at every step of the run. -/
def goodRunB (d : Document) : List DocOp → Bool
  | [] => true
  | op :: rest =>
    sideOK d op &&
      (match applyDocOp d op with
       | some d1 => goodRunB d1 rest
       | none => true)

theorem wf_attach (d : Document) (n p : Nat) (pos : Option Nat) (b : Bool)
    (d2 : Document) (hW : Wf d)
    (hn : parentlessAt d n = true) (hp : storedAt d p = true)
    (h : d.attach_node_to_parent n p pos = some (b, d2)) : Wf d2 := by
  have hnd : ∃ nd, d.arena.get_node n = some nd ∧ nd.parent = none := by
    unfold parentlessAt Document.get_node_by_id at hn
    cases hg : d.arena.get_node n with
    | none =>
      rw [hg] at hn
      exact Bool.noConfusion hn
    | some nd =>
      rw [hg] at hn
      have hb : (nd.parent == none) = true := hn
      exact ⟨nd, rfl, by simpa using hb⟩
  rcases hnd with ⟨nd, hgn, hndp⟩
  have hpn : ∃ pn, d.arena.get_node p = some pn := by
    unfold storedAt Document.get_node_by_id at hp
    exact Option.isSome_iff_exists.mp hp
  rcases hpn with ⟨pn, hgp⟩
  rcases attach_cases d n p pos with ⟨-, heq⟩ | ⟨hcond, node, hget, heq⟩ | ⟨-, -, heqn⟩
  · rw [heq] at h
    cases h
    exact hW
  · have hpne : p ≠ n := by
      intro hq
      rw [hq] at hcond
      simp at hcond
    have hget2 : d.arena.get_node n = some node := by
      have hx := attachChildren_get_ne d n p pos n (fun hq => hpne hq.symm)
      rw [hx] at hget
      exact hget
    rw [hgn] at hget2
    cases hget2
    rw [heq] at h
    cases h
    rw [attachChildren_eq d n p pos pn (show d.get_node_by_id p = some pn from hgp)]
    exact wf_attach_core d n p pos nd pn hW hgn hndp hgp hpne
  · rw [heqn] at h
    exact Option.noConfusion h

theorem wf_detach_core (d : Document) (n a : Nat) (nd pn : Node) (hW : Wf d)
    (hgn : d.arena.get_node n = some nd) (hp : nd.parent = some a)
    (hgp : d.arena.get_node a = some pn) (hane : a ≠ n) :
    Wf { detachMid d n a pn with arena := (detachMid d n a pn).arena.set_node n { nd with parent := none } } := by
  obtain ⟨hS, hC, hP, hN⟩ := hW
  have hlt_a : a < d.arena.nodes.length := lt_of_get_node_eq_some hgp
  have hlt_n : n < d.arena.nodes.length := lt_of_get_node_eq_some hgn
  show Wf { d with arena := (d.arena.set_node a { pn with children := pn.children.filter (fun id => id != n) }).set_node n { nd with parent := none } }
  have hfin := get_node_set2 d.arena
    { pn with children := pn.children.filter (fun id => id != n) } { nd with parent := none }
    hane hlt_a hlt_n
  have hlen : ((d.arena.set_node a { pn with children := pn.children.filter (fun id => id != n) }).set_node n { nd with parent := none }).nodes.length = d.arena.nodes.length := by
    rw [length_set_node, length_set_node]
  have hmemn : ∀ j nj, d.arena.get_node j = some nj → n ∈ nj.children → a = j := by
    intro j nj hgj hmem
    have hx := (hS n j nd nj hgn hgj).mp hmem
    rw [hp] at hx
    exact Option.some.inj hx
  refine ⟨?_, ?_, ?_, ?_⟩
  · intro i j ni nj hgi hgj
    rw [hfin i] at hgi
    rw [hfin j] at hgj
    by_cases hj : j = n
    · rw [if_pos hj] at hgj
      cases hgj
      by_cases hi : i = n
      · rw [if_pos hi] at hgi
        cases hgi
        show i ∈ nd.children ↔ none = some j
        constructor
        · intro hmem
          rw [hi] at hmem
          exact absurd (hmemn n nd hgn hmem) hane
        · intro hq
          exact Option.noConfusion hq
      · rw [if_neg hi] at hgi
        by_cases hia : i = a
        · rw [if_pos hia] at hgi
          cases hgi
          show i ∈ nd.children ↔ pn.parent = some j
          rw [hj]
          have hgi2 : d.arena.get_node i = some pn := by rw [hia]; exact hgp
          exact hS i n pn nd hgi2 hgn
        · rw [if_neg hia] at hgi
          show i ∈ nd.children ↔ ni.parent = some j
          rw [hj]
          exact hS i n ni nd hgi hgn
    · rw [if_neg hj] at hgj
      by_cases hja : j = a
      · rw [if_pos hja] at hgj
        cases hgj
        show i ∈ pn.children.filter (fun id => id != n) ↔ ni.parent = some j
        rw [mem_filter_ne]
        by_cases hi : i = n
        · rw [if_pos hi] at hgi
          cases hgi
          show i ∈ pn.children ∧ i ≠ n ↔ none = some j
          constructor
          · rintro ⟨-, hq⟩
            exact absurd hi hq
          · intro hq
            exact Option.noConfusion hq
        · rw [if_neg hi] at hgi
          by_cases hia : i = a
          · rw [if_pos hia] at hgi
            cases hgi
            show i ∈ pn.children ∧ i ≠ n ↔ pn.parent = some j
            rw [hja]
            have hgi2 : d.arena.get_node i = some pn := by rw [hia]; exact hgp
            constructor
            · rintro ⟨hq, -⟩
              exact (hS i a pn pn hgi2 hgp).mp hq
            · intro hq
              exact ⟨(hS i a pn pn hgi2 hgp).mpr hq, hi⟩
          · rw [if_neg hia] at hgi
            rw [hja]
            constructor
            · rintro ⟨hq, -⟩
              exact (hS i a ni pn hgi hgp).mp hq
            · intro hq
              exact ⟨(hS i a ni pn hgi hgp).mpr hq, hi⟩
      · rw [if_neg hja] at hgj
        by_cases hi : i = n
        · rw [if_pos hi] at hgi
          cases hgi
          show i ∈ nj.children ↔ none = some j
          constructor
          · intro hmem
            rw [hi] at hmem
            exact absurd (hmemn j nj hgj hmem) (fun hq => hja hq.symm)
          · intro hq
            exact Option.noConfusion hq
        · rw [if_neg hi] at hgi
          by_cases hia : i = a
          · rw [if_pos hia] at hgi
            cases hgi
            show i ∈ nj.children ↔ pn.parent = some j
            have hgi2 : d.arena.get_node i = some pn := by rw [hia]; exact hgp
            exact hS i j pn nj hgi2 hgj
          · rw [if_neg hia] at hgi
            exact hS i j ni nj hgi hgj
  · intro j nj hgj c hc
    rw [hfin j] at hgj
    show c < _
    rw [hlen]
    by_cases hj : j = n
    · rw [if_pos hj] at hgj
      cases hgj
      exact hC n nd hgn c hc
    · rw [if_neg hj] at hgj
      by_cases hja : j = a
      · rw [if_pos hja] at hgj
        cases hgj
        rcases (mem_filter_ne pn.children n c).mp hc with ⟨hq, -⟩
        exact hC a pn hgp c hq
      · rw [if_neg hja] at hgj
        exact hC j nj hgj c hc
  · intro i ni hgi q hq
    rw [hfin i] at hgi
    show q < _
    rw [hlen]
    by_cases hi : i = n
    · rw [if_pos hi] at hgi
      cases hgi
      exact Option.noConfusion hq
    · rw [if_neg hi] at hgi
      by_cases hia : i = a
      · rw [if_pos hia] at hgi
        cases hgi
        exact hP a pn hgp q hq
      · rw [if_neg hia] at hgi
        exact hP i ni hgi q hq
  · intro i ni hgi
    rw [hfin i] at hgi
    by_cases hi : i = n
    · rw [if_pos hi] at hgi
      cases hgi
      show (none : Option Nat) ≠ some i
      intro hq
      exact Option.noConfusion hq
    · rw [if_neg hi] at hgi
      by_cases hia : i = a
      · rw [if_pos hia] at hgi
        cases hgi
        show pn.parent ≠ some i
        rw [hia]
        exact hN a pn hgp
      · rw [if_neg hia] at hgi
        exact hN i ni hgi

theorem wf_detach (d : Document) (n : Nat) (d1 : Document) (hW : Wf d)
    (h : d.detach_node_from_parent n = some d1) : Wf d1 := by
  cases hg : d.get_node_by_id n with
  | none =>
    rw [detach_eq_none_of_get_none d n hg] at h
    exact Option.noConfusion h
  | some nd =>
    rw [detach_eq_of_get d n nd hg] at h
    cases hps : nd.parent with
    | none =>
      rw [hps] at h
      have h2 : some d = some d1 := h
      cases h2
      exact hW
    | some a =>
      rw [hps] at h
      have hane : a ≠ n := by
        intro hq
        apply hW.2.2.2 n nd hg
        rw [hps, hq]
      have h3 : (match d.get_node_by_id a with
        | none => none
        | some parent_node => detachUpdate d n a parent_node) = some d1 := h
      clear h
      cases hga : d.get_node_by_id a with
      | none => rw [hga] at h3; exact Option.noConfusion h3
      | some pn =>
        rw [hga] at h3
        have h4 : detachUpdate d n a pn = some d1 := h3
        clear h3
        rcases detachUpdate_cases d n a pn with ⟨-, heq⟩ | ⟨n2, hgn2, heq⟩ <;> rw [heq] at h4
        · exact Option.noConfusion h4
        · have hlt_a : a < d.arena.nodes.length := lt_of_get_node_eq_some hga
          have hgn2x : d.arena.get_node n = some n2 := by
            have hmx := get_node_set1 d.arena
              { pn with children := pn.children.filter (fun id => id != n) } hlt_a n
            rw [if_neg (fun hq => hane hq.symm)] at hmx
            have hgn2y : (d.arena.set_node a { pn with children := pn.children.filter (fun id => id != n) }).get_node n = some n2 := hgn2
            rw [hmx] at hgn2y
            exact hgn2y
          have hgnd : d.arena.get_node n = some nd := hg
          rw [hgnd] at hgn2x
          cases hgn2x
          have h5 : some ({ detachMid d n a pn with arena := (detachMid d n a pn).arena.set_node n { nd with parent := none } } : Document) = some d1 := h4
          cases h5
          exact wf_detach_core d n a nd pn hW hgnd hps hga hane

theorem detach_parentless (d : Document) (n : Nat) (d1 : Document) (nd : Node)
    (hg : d.get_node_by_id n = some nd) (h : d.detach_node_from_parent n = some d1) :
    parentlessAt d1 n = true := by
  rw [detach_eq_of_get d n nd hg] at h
  cases hps : nd.parent with
  | none =>
    rw [hps] at h
    have h2 : some d = some d1 := h
    cases h2
    unfold parentlessAt
    rw [hg]
    show (nd.parent == none) = true
    rw [hps]
    rfl
  | some a =>
    rw [hps] at h
    have h3 : (match d.get_node_by_id a with
      | none => none
      | some parent_node => detachUpdate d n a parent_node) = some d1 := h
    clear h
    cases hga : d.get_node_by_id a with
    | none => rw [hga] at h3; exact Option.noConfusion h3
    | some pn =>
      rw [hga] at h3
      have h4 : detachUpdate d n a pn = some d1 := h3
      clear h3
      rcases detachUpdate_cases d n a pn with ⟨-, heq⟩ | ⟨n2, hgn2, heq⟩ <;> rw [heq] at h4
      · exact Option.noConfusion h4
      · have h5 : some ({ detachMid d n a pn with arena := (detachMid d n a pn).arena.set_node n { n2 with parent := none } } : Document) = some d1 := h4
        cases h5
        have hlt : n < (detachMid d n a pn).arena.nodes.length :=
          lt_of_get_node_eq_some (show (detachMid d n a pn).arena.get_node n = some n2 from hgn2)
        unfold parentlessAt
        show (match ((detachMid d n a pn).arena.set_node n { n2 with parent := none }).get_node n with
          | some ndx => ndx.parent == none
          | none => false) = true
        rw [get_node_set_self _ _ _ hlt]
        rfl

theorem storedAt_iff_lt (d : Document) (i : Nat) :
    storedAt d i = true ↔ i < d.arena.nodes.length := by
  unfold storedAt Document.get_node_by_id
  constructor
  · intro h
    rcases Option.isSome_iff_exists.mp h with ⟨x, hx⟩
    exact lt_of_get_node_eq_some hx
  · intro h
    rcases get_node_eq_some_of_lt h with ⟨x, hx⟩
    rw [hx]
    rfl

theorem wf_relocate (d : Document) (n p : Nat) (d1 : Document) (hW : Wf d)
    (hp : storedAt d p = true) (h : d.relocate n p = some d1) : Wf d1 := by
  cases hg : d.get_node_by_id n with
  | none =>
    rw [relocate_eq_none_of_get_none d n p hg] at h
    exact Option.noConfusion h
  | some nd =>
    rw [relocate_eq_of_get d n p nd hg] at h
    cases hreg : !nd.is_registered with
    | true =>
      rw [hreg] at h
      simp only [if_true] at h
      exact Option.noConfusion h
    | false =>
      rw [hreg] at h
      simp only [Bool.false_eq_true, if_false] at h
      cases hpp : nd.parent == some p with
      | true =>
        rw [hpp] at h
        simp only [if_true] at h
        have h2 : some d = some d1 := h
        cases h2
        exact hW
      | false =>
        rw [hpp] at h
        simp only [Bool.false_eq_true, if_false] at h
        cases hdet : d.detach_node_from_parent n with
        | none => rw [hdet] at h; exact Option.noConfusion h
        | some dmid =>
          rw [hdet] at h
          have hWmid : Wf dmid := wf_detach d n dmid hW hdet
          have hpl : parentlessAt dmid n = true := detach_parentless d n dmid nd hg hdet
          have hst : storedAt dmid p = true := by
            rcases detach_shape d n dmid hdet with ⟨-, -, -, hlen⟩
            rw [storedAt_iff_lt, hlen]
            exact (storedAt_iff_lt d p).mp hp
          have h3 : (match dmid.attach_node_to_parent n p none with
            | some pr => some pr.snd
            | none => none) = some d1 := h
          clear h
          cases hatt : dmid.attach_node_to_parent n p none with
          | none => rw [hatt] at h3; exact Option.noConfusion h3
          | some pr =>
            rw [hatt] at h3
            have h4 : some pr.snd = some d1 := h3
            cases h4
            exact wf_attach dmid n p none pr.fst pr.snd hWmid hpl hst (by rw [hatt])

theorem wf_add_node (d : Document) (node : Node) (pid : Nat) (pos : Option Nat)
    (d1 : Document) (k : Nat) (hW : Wf d)
    (hreg : node.is_registered = false) (hnp : node.parent = none)
    (hnc : node.children = []) (hpid : pid < d.arena.nodes.length)
    (h : d.add_node node pid pos = some (d1, k)) : Wf d1 := by
  rcases add_new_node_fresh_shape d node hreg with ⟨nd, hpar, hch, hnodes, hsnd, -, -, -⟩
  have hWmid : Wf (d.add_new_node node).fst :=
    wf_append_fresh d _ nd (hpar.trans hnp) (hch.trans hnc) hnodes hW
  rcases add_node_split d node pid pos d1 k h with ⟨-, b, hatt⟩
  have hgetmid : (d.add_new_node node).fst.arena.get_node d.arena.nodes.length = some nd := by
    show (NodeArena.mk (d.add_new_node node).fst.arena.nodes).get_node _ = _
    rw [hnodes]
    exact get_node_append_last d.arena nd
  have hplmid : parentlessAt (d.add_new_node node).fst (d.add_new_node node).snd = true := by
    unfold parentlessAt
    show (match (d.add_new_node node).fst.arena.get_node (d.add_new_node node).snd with
      | some ndx => ndx.parent == none
      | none => false) = true
    rw [hsnd, hgetmid]
    show (nd.parent == none) = true
    rw [hpar.trans hnp]
    rfl
  have hstmid : storedAt (d.add_new_node node).fst pid = true := by
    rw [storedAt_iff_lt]
    show pid < (NodeArena.mk (d.add_new_node node).fst.arena.nodes).nodes.length
    rw [hnodes]
    simp only [List.length_append, List.length_singleton]
    omega
  exact wf_attach _ _ _ _ _ _ hWmid hplmid hstmid hatt

theorem wf_applyCall_attr (d : Document) (k v : String) (e : Nat) (d2 : Document)
    (hW : Wf d) (h : applyCall d (DocumentTask.insertAttribute k v e) = some d2) :
    Wf d2 := by
  rcases insert_attribute_shape d k v e with ⟨m, heq⟩ | ⟨d3, hres, hlen, hpar, hch, -, -⟩
  · simp only [applyCall, heq] at h
    cases h
    exact hW
  · rcases hres with heq | heq <;> simp only [applyCall, heq] at h
    · cases h
      exact wf_transfer d d2 hlen hpar hch hW
    · exact Option.noConfusion h

theorem wf_runCalls (ts : List DocumentTask) :
    ∀ d d1, Wf d → goodTasksB d.arena.nodes.length ts = true →
      runCalls d ts = some d1 → Wf d1 := by
  induction ts with
  | nil =>
    intro d d1 hW hg h
    cases h
    exact hW
  | cons t rest ih =>
    intro d d1 hW hg h
    unfold runCalls at h
    cases happ : applyCall d t <;> rw [happ] at h
    · exact Option.noConfusion h
    · rename_i d2
      have hlen2 := applyCall_length d t d2 happ
      cases t with
      | createElement name pid pos ns =>
        have hg2 : (decide (pid < d.arena.nodes.length)
            && goodTasksB (d.arena.nodes.length + 1) rest) = true := hg
        rw [Bool.and_eq_true] at hg2
        rcases hg2 with ⟨hpidb, hrest⟩
        have hpid : pid < d.arena.nodes.length := of_decide_eq_true hpidb
        have hW2 : Wf d2 := by
          rcases create_element_id d name pid pos ns with ⟨d3, heq, -⟩
          simp only [applyCall, heq, Option.map_some] at happ
          cases happ
          exact wf_add_node d _ pid pos d3 _ hW rfl rfl rfl hpid heq
        refine ih d2 d1 hW2 ?_ h
        rw [show d2.arena.nodes.length = d.arena.nodes.length + 1 from by simpa [isCreator] using hlen2]
        exact hrest
      | createText c pid =>
        have hg2 : (decide (pid < d.arena.nodes.length)
            && goodTasksB (d.arena.nodes.length + 1) rest) = true := hg
        rw [Bool.and_eq_true] at hg2
        rcases hg2 with ⟨hpidb, hrest⟩
        have hpid : pid < d.arena.nodes.length := of_decide_eq_true hpidb
        have hW2 : Wf d2 := by
          rcases create_text_length d c pid with ⟨d3, heq, -⟩
          simp only [applyCall, heq] at happ
          cases happ
          rcases add_node_fresh d (Node.new_text c) pid none rfl with ⟨d4, heq4, -⟩
          have hct : d.create_text c pid = some d4 := by
            unfold Document.create_text
            rw [heq4]
            rfl
          rw [heq] at hct
          cases hct
          exact wf_add_node d _ pid none _ _ hW rfl rfl rfl hpid heq4
        refine ih d2 d1 hW2 ?_ h
        rw [show d2.arena.nodes.length = d.arena.nodes.length + 1 from by simpa [isCreator] using hlen2]
        exact hrest
      | createComment c pid =>
        have hg2 : (decide (pid < d.arena.nodes.length)
            && goodTasksB (d.arena.nodes.length + 1) rest) = true := hg
        rw [Bool.and_eq_true] at hg2
        rcases hg2 with ⟨hpidb, hrest⟩
        have hpid : pid < d.arena.nodes.length := of_decide_eq_true hpidb
        have hW2 : Wf d2 := by
          rcases create_comment_length d c pid with ⟨d3, heq, -⟩
          simp only [applyCall, heq] at happ
          cases happ
          rcases add_node_fresh d (Node.new_comment c) pid none rfl with ⟨d4, heq4, -⟩
          have hct : d.create_comment c pid = some d4 := by
            unfold Document.create_comment
            rw [heq4]
            rfl
          rw [heq] at hct
          cases hct
          exact wf_add_node d _ pid none _ _ hW rfl rfl rfl hpid heq4
        refine ih d2 d1 hW2 ?_ h
        rw [show d2.arena.nodes.length = d.arena.nodes.length + 1 from by simpa [isCreator] using hlen2]
        exact hrest
      | insertAttribute k v e =>
        have hrest : goodTasksB d.arena.nodes.length rest = true := hg
        have hW2 : Wf d2 := wf_applyCall_attr d k v e d2 hW happ
        refine ih d2 d1 hW2 ?_ h
        rw [show d2.arena.nodes.length = d.arena.nodes.length from by simpa [isCreator] using hlen2]
        exact hrest

theorem wf_applyDocOp (d : Document) (op : DocOp) (d1 : Document) (hW : Wf d)
    (hside : sideOK d op = true) (h : applyDocOp d op = some d1) : Wf d1 := by
  cases op with
  | addNewNodeOp data =>
    simp only [applyDocOp] at h
    cases h
    rcases add_new_node_fresh_shape d (freshNode data) rfl with
      ⟨nd, hpar, hch, hnodes, -, -, -, -⟩
    exact wf_append_fresh d _ nd hpar hch hnodes hW
  | addNodeOp data pid pos =>
    have hpid : pid < d.arena.nodes.length := of_decide_eq_true hside
    rcases add_node_fresh d (freshNode data) pid pos rfl with ⟨d2, heq, -⟩
    simp only [applyDocOp, heq, Option.map_some] at h
    cases h
    exact wf_add_node d _ pid pos d2 _ hW rfl rfl rfl hpid heq
  | attachOp n p pos =>
    have hside2 : (parentlessAt d n && storedAt d p) = true := hside
    rw [Bool.and_eq_true] at hside2
    rcases hside2 with ⟨hpl, hst⟩
    simp only [applyDocOp] at h
    cases hatt : d.attach_node_to_parent n p pos <;> rw [hatt] at h
    · exact Option.noConfusion h
    · rename_i pr
      have h2 : some pr.snd = some d1 := h
      cases h2
      exact wf_attach d n p pos pr.fst pr.snd hW hpl hst (by rw [hatt])
  | detachOp n =>
    simp only [applyDocOp] at h
    exact wf_detach d n d1 hW h
  | relocateOp n p =>
    simp only [applyDocOp] at h
    exact wf_relocate d n p d1 hW hside h
  | insertAttrOp k v e =>
    simp only [applyDocOp] at h
    exact wf_applyCall_attr d k v e d1 hW h
  | flushOp ts =>
    simp only [applyDocOp] at h
    cases hf : flushLoop d ts [] <;> rw [hf] at h
    · exact Option.noConfusion h
    · rename_i r
      have h2 : some r.snd = some d1 := h
      cases h2
      rcases flushLoop_spec ts d [] r.fst r.snd hf with ⟨hrun, -⟩
      exact wf_runCalls ts d r.snd hW hside hrun

theorem wf_runDocOps (ops : List DocOp) :
    ∀ d d1, Wf d → goodRunB d ops = true → runDocOps d ops = some d1 → Wf d1 := by
  induction ops with
  | nil =>
    intro d d1 hW hg h
    cases h
    exact hW
  | cons op rest ih =>
    intro d d1 hW hg h
    unfold runDocOps at h
    have hg2 : (sideOK d op &&
        (match applyDocOp d op with
         | some dx => goodRunB dx rest
         | none => true)) = true := hg
    rw [Bool.and_eq_true] at hg2
    rcases hg2 with ⟨hside, hrest⟩
    cases happ : applyDocOp d op <;> rw [happ] at h hrest
    · exact Option.noConfusion h
    · rename_i d2
      exact ih d2 d1 (wf_applyDocOp d op d2 hW hside happ) hrest h

theorem new_document_get (i : Nat) (ni : Node)
    (h : DocumentBuilder.new_document.arena.get_node i = some ni) :
    i = 0 ∧ ni.parent = none ∧ ni.children = [] := by
  cases i with
  | zero =>
    have h2 : some { id := 0, parent := (none : Option Nat), children := ([] : List Nat), data := NodeData.document, is_registered := true } = some ni := h
    cases h2
    exact ⟨rfl, rfl, rfl⟩
  | succ m =>
    have h2 : (none : Option Node) = some ni := h
    exact Option.noConfusion h2

theorem wf_initial : Wf DocumentBuilder.new_document := by
  refine ⟨?_, ?_, ?_, ?_⟩
  · intro i j ni nj hgi hgj
    rcases new_document_get i ni hgi with ⟨-, hpar, -⟩
    rcases new_document_get j nj hgj with ⟨-, -, hch⟩
    rw [hch, hpar]
    simp
  · intro j nj hgj c hc
    rcases new_document_get j nj hgj with ⟨-, -, hch⟩
    rw [hch] at hc
    exact absurd hc (List.not_mem_nil c)
  · intro i ni hgi q hq
    rcases new_document_get i ni hgi with ⟨-, hpar, -⟩
    rw [hpar] at hq
    exact Option.noConfusion hq
  · intro i ni hgi
    rcases new_document_get i ni hgi with ⟨-, hpar, -⟩
    rw [hpar]
    intro hq
    exact Option.noConfusion hq

/-! ## C2 — parent/child symmetry -/

/-- **C2 (amended)** Starting from a freshly built document, parent/child
symmetry (a stored node's id is in a stored parent's children list iff its
parent field names that parent) holds after every completed tree operation,
provided each direct `attach_node_to_parent` targets a node with no
current parent and a stored parent id, and each `add_node`, `relocate` and
replayed create task names a stored parent.  Without the attach proviso the
claim fails: `attach_node_to_parent` does not detach the node from its old
parent first. -/
theorem C2_parent_child_symmetry (ops : List DocOp) (d1 : Document)
    (hg : goodRunB DocumentBuilder.new_document ops = true)
    (hr : runDocOps DocumentBuilder.new_document ops = some d1) :
    Symmetry d1 :=
  (wf_runDocOps ops DocumentBuilder.new_document d1 wf_initial hg hr).1

/-- A well-behaved operation sequence: two elements under the root, a
detach, a re-attach of the detached node under the other element, an
attribute insertion and a flushed text task. -/
def c2WitnessOps : List DocOp :=
  [DocOp.addNodeOp (NodeData.element "a" "html" [] 0) 0 none,
   DocOp.addNodeOp (NodeData.element "b" "html" [] 0) 0 none,
   DocOp.detachOp 1,
   DocOp.attachOp 1 2 none,
   DocOp.insertAttrOp "id" "myid" 2,
   DocOp.flushOp [DocumentTask.createText "hey" 2]]

/-- The document reached by `c2WitnessOps`. -/
def c2WitnessDoc : Document :=
  match runDocOps DocumentBuilder.new_document c2WitnessOps with
  | some d => d
  | none => Document.new

/-- **C2 (witness)** The amended theorem applied to a concrete completed
run. -/
theorem C2_witness :
    goodRunB DocumentBuilder.new_document c2WitnessOps = true
    ∧ runDocOps DocumentBuilder.new_document c2WitnessOps = some c2WitnessDoc
    ∧ Symmetry c2WitnessDoc :=
  ⟨by decide, rfl, C2_parent_child_symmetry c2WitnessOps c2WitnessDoc (by decide) rfl⟩

/-- Two elements under the root, then a direct attach of the second (still
attached to the root) under the first. -/
def c2CounterOps : List DocOp :=
  [DocOp.addNodeOp (NodeData.element "a" "html" [] 0) 0 none,
   DocOp.addNodeOp (NodeData.element "b" "html" [] 0) 0 none,
   DocOp.attachOp 2 1 none]

/-- The document reached by `c2CounterOps`. -/
def c2CounterDoc : Document :=
  match runDocOps DocumentBuilder.new_document c2CounterOps with
  | some d => d
  | none => Document.new

/-- The root node of `c2CounterDoc`. -/
def c2Node0 : Node :=
  match c2CounterDoc.arena.get_node 0 with
  | some n => n
  | none => Node.new_document

/-- Node 2 of `c2CounterDoc`. -/
def c2Node2 : Node :=
  match c2CounterDoc.arena.get_node 2 with
  | some n => n
  | none => Node.new_document

/-- **C2 (counterexample)** After the completed operations of
`c2CounterOps` (register `<a>` and `<b>` under the root, then attach node 2
under node 1 without detaching it), node 2 is still listed among the root's
children while its parent field names node 1 — parent/child symmetry is
violated, refuting the claim for unrestricted completed operations. -/
theorem C2_counterexample :
    runDocOps DocumentBuilder.new_document c2CounterOps = some c2CounterDoc
    ∧ childrenAt c2CounterDoc 0 = some [1, 2]
    ∧ parentAt c2CounterDoc 2 = some (some 1)
    ∧ ¬ Symmetry c2CounterDoc := by
  refine ⟨rfl, by decide, by decide, ?_⟩
  intro hS
  have h := (hS 2 0 c2Node2 c2Node0 rfl rfl).mp (by decide)
  exact absurd h (by decide)

/-! ## C9 — unique parentless root -/

/-- Exactly one stored node has no parent, and it is the node at identity 0
(the root document node). -/
def UniqueRoot (d : Document) : Prop :=
  parentAt d 0 = some none ∧ ∀ i, parentAt d i = some none → i = 0

theorem cyclic_false_of_empty_children (d : Document) (n p : Nat) (nd : Node)
    (hg : d.arena.get_node n = some nd) (hch : nd.children = []) :
    d.has_cyclic_reference n p = false := by
  unfold Document.has_cyclic_reference has_child_recursive
  rw [hg]
  show (nd.children.any (fun id => id == p
    || has_child d.arena d.arena.nodes.length (d.arena.get_node id) p)) = false
  rw [hch]
  rfl

theorem attach_parent_map (d : Document) (n p : Nat) (pos : Option Nat)
    (b : Bool) (d2 : Document) (nd : Node)
    (hgn : d.arena.get_node n = some nd)
    (hguard : (p == n || d.has_cyclic_reference n p) = false)
    (h : d.attach_node_to_parent n p pos = some (b, d2)) :
    parentAt d2 n = some (some p)
    ∧ ∀ i, i ≠ n → parentAt d2 i = parentAt d i := by
  rcases attach_cases d n p pos with ⟨hc, -⟩ | ⟨hcond, node, hget, heq⟩ | ⟨hcond3, hnone, -⟩
  · rw [hc] at hguard
    exact Bool.noConfusion hguard
  · have hpne : p ≠ n := by
      intro hq
      rw [hq] at hcond
      simp at hcond
    have hget2 : d.arena.get_node n = some node := by
      have hx : (attachChildren d n p pos).arena.get_node n = d.arena.get_node n :=
        attachChildren_get_ne d n p pos n (fun hq => hpne hq.symm)
      have hget1 : (attachChildren d n p pos).arena.get_node n = some node := hget
      rw [hx] at hget1
      exact hget1
    rw [hgn] at hget2
    cases hget2
    rw [heq] at h
    cases h
    have hlt : n < (attachChildren d n p pos).arena.nodes.length := by
      rw [attachChildren_length]
      exact lt_of_get_node_eq_some hgn
    constructor
    · unfold parentAt Document.get_node_by_id
      rw [get_node_set_self _ n _ hlt]
      rfl
    · intro i hi
      unfold parentAt Document.get_node_by_id
      rw [get_node_set_ne _ n i _ (fun hq => hi hq.symm)]
      by_cases hip : i = p
      · subst hip
        cases hgp : d.arena.get_node i with
        | none =>
          have hid : attachChildren d n i pos = d := by
            unfold attachChildren
            rw [show d.get_node_by_id i = none from hgp]
          rw [hid, hgp]
        | some pn =>
          have hx : (attachChildren d n i pos).arena.get_node i
              = some { pn with children := clampInsert pn.children pos n } :=
            attachChildren_get_parent d n i pos pn hgp
          rw [hx]
          rfl
      · have hx : (attachChildren d n p pos).arena.get_node i = d.arena.get_node i :=
          attachChildren_get_ne d n p pos i hip
        rw [hx]
  · have hpne : p ≠ n := by
      intro hq
      rw [hq] at hcond3
      simp at hcond3
    have hx : (attachChildren d n p pos).arena.get_node n = d.arena.get_node n :=
      attachChildren_get_ne d n p pos n (fun hq => hpne hq.symm)
    have hnone2 : (attachChildren d n p pos).arena.get_node n = none := hnone
    rw [hx, hgn] at hnone2
    exact Option.noConfusion hnone2

theorem add_node_parent_map (d : Document) (node : Node) (pid : Nat)
    (pos : Option Nat) (d1 : Document) (k : Nat)
    (hreg : node.is_registered = false) (hnc : node.children = [])
    (hpid : pid < d.arena.nodes.length)
    (h : d.add_node node pid pos = some (d1, k)) :
    parentAt d1 d.arena.nodes.length = some (some pid)
    ∧ ∀ i, i ≠ d.arena.nodes.length → parentAt d1 i = parentAt d i := by
  rcases add_new_node_fresh_shape d node hreg with ⟨nd, -, hch, hnodes, hsnd, -, -, -⟩
  rcases add_node_split d node pid pos d1 k h with ⟨-, b, hatt⟩
  rw [hsnd] at hatt
  have hgetmid : (d.add_new_node node).fst.arena.get_node d.arena.nodes.length = some nd := by
    show (NodeArena.mk (d.add_new_node node).fst.arena.nodes).get_node _ = _
    rw [hnodes]
    exact get_node_append_last d.arena nd
  have hguard : (pid == d.arena.nodes.length
      || (d.add_new_node node).fst.has_cyclic_reference d.arena.nodes.length pid) = false := by
    have h1 : (pid == d.arena.nodes.length) = false := by
      rw [beq_eq_false_iff_ne]
      omega
    have h2 : (d.add_new_node node).fst.has_cyclic_reference d.arena.nodes.length pid = false :=
      cyclic_false_of_empty_children _ _ pid nd hgetmid (hch.trans hnc)
    rw [h1, h2]
    rfl
  rcases attach_parent_map (d.add_new_node node).fst d.arena.nodes.length pid pos b d1 nd
    hgetmid hguard hatt with ⟨hnew, hother⟩
  refine ⟨hnew, ?_⟩
  intro i hi
  rw [hother i hi]
  unfold parentAt Document.get_node_by_id
  have hmid : (d.add_new_node node).fst.arena.get_node i = d.arena.get_node i := by
    show (NodeArena.mk (d.add_new_node node).fst.arena.nodes).get_node i = _
    rw [hnodes]
    rcases Nat.lt_or_ge i d.arena.nodes.length with hlt | hge
    · exact get_node_append_left nd hlt
    · rw [get_node_append_beyond d.arena nd (by omega)]
      symm
      rw [NodeArena.get_node]
      exact List.getElem?_eq_none_iff.mpr (by omega)
  rw [hmid]

theorem uroot_add_node (d : Document) (node : Node) (pid : Nat) (pos : Option Nat)
    (d1 : Document) (k : Nat) (hreg : node.is_registered = false)
    (hnc : node.children = []) (hpid : pid < d.arena.nodes.length)
    (hU : UniqueRoot d) (h : d.add_node node pid pos = some (d1, k)) :
    UniqueRoot d1 := by
  rcases add_node_parent_map d node pid pos d1 k hreg hnc hpid h with ⟨hnew, hother⟩
  have hlen0 : (0 : Nat) ≠ d.arena.nodes.length := by omega
  constructor
  · rw [hother 0 hlen0]
    exact hU.1
  · intro i hi
    by_cases hil : i = d.arena.nodes.length
    · subst hil
      rw [hnew] at hi
      exact absurd hi (by simp)
    · refine hU.2 i ?_
      rw [hother i hil] at hi
      exact hi

theorem uroot_attr (d : Document) (k v : String) (e : Nat) (d2 : Document)
    (hU : UniqueRoot d)
    (h : applyCall d (DocumentTask.insertAttribute k v e) = some d2) :
    UniqueRoot d2 := by
  rcases insert_attribute_shape d k v e with ⟨m, heq⟩ | ⟨d3, hres, -, hpar, -, -, -⟩
  · simp only [applyCall, heq] at h
    cases h
    exact hU
  · rcases hres with heq | heq <;> simp only [applyCall, heq] at h
    · cases h
      refine ⟨by rw [hpar 0]; exact hU.1, fun i hi => hU.2 i ?_⟩
      rw [hpar i] at hi
      exact hi
    · exact Option.noConfusion h

theorem uroot_runCalls (ts : List DocumentTask) :
    ∀ d d1, UniqueRoot d → goodTasksB d.arena.nodes.length ts = true →
      runCalls d ts = some d1 → UniqueRoot d1 := by
  induction ts with
  | nil =>
    intro d d1 hU hg h
    cases h
    exact hU
  | cons t rest ih =>
    intro d d1 hU hg h
    unfold runCalls at h
    cases happ : applyCall d t <;> rw [happ] at h
    · exact Option.noConfusion h
    · rename_i d2
      have hlen2 := applyCall_length d t d2 happ
      cases t with
      | createElement name pid pos ns =>
        have hg2 : (decide (pid < d.arena.nodes.length)
            && goodTasksB (d.arena.nodes.length + 1) rest) = true := hg
        rw [Bool.and_eq_true] at hg2
        rcases hg2 with ⟨hpidb, hrest⟩
        have hpid : pid < d.arena.nodes.length := of_decide_eq_true hpidb
        have hU2 : UniqueRoot d2 := by
          rcases create_element_id d name pid pos ns with ⟨d3, heq, -⟩
          simp only [applyCall, heq, Option.map_some] at happ
          cases happ
          exact uroot_add_node d _ pid pos d3 _ rfl rfl hpid hU heq
        refine ih d2 d1 hU2 ?_ h
        rw [show d2.arena.nodes.length = d.arena.nodes.length + 1 from by simpa [isCreator] using hlen2]
        exact hrest
      | createText c pid =>
        have hg2 : (decide (pid < d.arena.nodes.length)
            && goodTasksB (d.arena.nodes.length + 1) rest) = true := hg
        rw [Bool.and_eq_true] at hg2
        rcases hg2 with ⟨hpidb, hrest⟩
        have hpid : pid < d.arena.nodes.length := of_decide_eq_true hpidb
        have hU2 : UniqueRoot d2 := by
          rcases create_text_length d c pid with ⟨d3, heq, -⟩
          simp only [applyCall, heq] at happ
          cases happ
          rcases add_node_fresh d (Node.new_text c) pid none rfl with ⟨d4, heq4, -⟩
          have hct : d.create_text c pid = some d4 := by
            unfold Document.create_text
            rw [heq4]
            rfl
          rw [heq] at hct
          cases hct
          exact uroot_add_node d _ pid none _ _ rfl rfl hpid hU heq4
        refine ih d2 d1 hU2 ?_ h
        rw [show d2.arena.nodes.length = d.arena.nodes.length + 1 from by simpa [isCreator] using hlen2]
        exact hrest
      | createComment c pid =>
        have hg2 : (decide (pid < d.arena.nodes.length)
            && goodTasksB (d.arena.nodes.length + 1) rest) = true := hg
        rw [Bool.and_eq_true] at hg2
        rcases hg2 with ⟨hpidb, hrest⟩
        have hpid : pid < d.arena.nodes.length := of_decide_eq_true hpidb
        have hU2 : UniqueRoot d2 := by
          rcases create_comment_length d c pid with ⟨d3, heq, -⟩
          simp only [applyCall, heq] at happ
          cases happ
          rcases add_node_fresh d (Node.new_comment c) pid none rfl with ⟨d4, heq4, -⟩
          have hct : d.create_comment c pid = some d4 := by
            unfold Document.create_comment
            rw [heq4]
            rfl
          rw [heq] at hct
          cases hct
          exact uroot_add_node d _ pid none _ _ rfl rfl hpid hU heq4
        refine ih d2 d1 hU2 ?_ h
        rw [show d2.arena.nodes.length = d.arena.nodes.length + 1 from by simpa [isCreator] using hlen2]
        exact hrest
      | insertAttribute k v e =>
        have hrest : goodTasksB d.arena.nodes.length rest = true := hg
        have hU2 : UniqueRoot d2 := uroot_attr d k v e d2 hU happ
        refine ih d2 d1 hU2 ?_ h
        rw [show d2.arena.nodes.length = d.arena.nodes.length from by simpa [isCreator] using hlen2]
        exact hrest

theorem uroot_initial : UniqueRoot DocumentBuilder.new_document := by
  constructor
  · decide
  · intro i hi
    unfold parentAt Document.get_node_by_id at hi
    cases hg : DocumentBuilder.new_document.arena.get_node i with
    | none =>
      rw [hg] at hi
      simp at hi
    | some ni =>
      exact (new_document_get i ni hg).1

/-- **C9 (amended)** Starting from a freshly built document, every completed
sequence of Tree-Builder calls (create_element, create_text, create_comment,
insert_attribute) whose create calls name stored parents preserves the
unique-root property: the node at identity 0 has no parent and every other
stored node has one.  The claim fails for detach_node_from_parent, which
leaves the detached node as a second parentless node. -/
theorem C9_unique_root (ts : List DocumentTask) (d1 : Document)
    (hg : goodTasksB DocumentBuilder.new_document.arena.nodes.length ts = true)
    (hr : runCalls DocumentBuilder.new_document ts = some d1) :
    UniqueRoot d1 :=
  uroot_runCalls ts DocumentBuilder.new_document d1 uroot_initial hg hr

/-- A Tree-Builder call sequence: an element under the root, a text child
under the element, and an id attribute on the element. -/
def c9Tasks : List DocumentTask :=
  [DocumentTask.createElement "html" 0 none "html",
   DocumentTask.createText "x" 1,
   DocumentTask.insertAttribute "id" "a1" 1]

/-- The document reached by `c9Tasks`. -/
def c9Doc : Document :=
  match runCalls DocumentBuilder.new_document c9Tasks with
  | some d => d
  | none => Document.new

/-- **C9 (witness)** The amended theorem applied to a concrete completed
call sequence. -/
theorem C9_witness :
    goodTasksB DocumentBuilder.new_document.arena.nodes.length c9Tasks = true
    ∧ runCalls DocumentBuilder.new_document c9Tasks = some c9Doc
    ∧ UniqueRoot c9Doc :=
  ⟨by decide, rfl, C9_unique_root c9Tasks c9Doc (by decide) rfl⟩

/-- Register an element under the root, then detach it. -/
def c9CounterOps : List DocOp :=
  [DocOp.addNodeOp (NodeData.element "a" "html" [] 0) 0 none,
   DocOp.detachOp 1]

/-- The document reached by `c9CounterOps`. -/
def c9CounterDoc : Document :=
  match runDocOps DocumentBuilder.new_document c9CounterOps with
  | some d => d
  | none => Document.new

/-- **C9 (counterexample)** After the completed operations of
`c9CounterOps` (register an element under the root, then
detach_node_from_parent on it), both node 0 and node 1 have no parent, so
more than one stored node is parentless — the claimed invariant does not
survive detach_node_from_parent. -/
theorem C9_counterexample :
    runDocOps DocumentBuilder.new_document c9CounterOps = some c9CounterDoc
    ∧ parentAt c9CounterDoc 0 = some none
    ∧ parentAt c9CounterDoc 1 = some none
    ∧ ¬ UniqueRoot c9CounterDoc := by
  refine ⟨rfl, by decide, by decide, ?_⟩
  intro hU
  exact absurd (hU.2 1 (by decide)) (by decide)

end Gosub
